import Mathlib

/-!
Shallow embedding of the SwingScannerWatchlist signal/grading scripts
(`scripts/quality_scan.py`, `scripts/trigger_scan.py`,
`scripts/backtest_quality.py`).

Conventions of the embedding:
* A pandas float cell is `Option ℚ`: `none` is NaN, `some v` a finite value.
  Python floats are modelled as exact rationals.
* Pandas comparison semantics: any comparison with NaN yields `False`
  (`o...2` helpers below), and arithmetic with NaN yields NaN (`oSub`).
* A data frame sorted by (Ticker, Date) is a `List (List Bar)`: the list of
  per-ticker partitions in ticker order, each partition in date order; the
  frame's rows are the concatenation (`List.join`).
* Dates are day numbers (`ℤ`); `pd.Timedelta(days=n)` is subtraction of `n`.
-/

namespace SwingScan

/-- Pandas `a <= b` on float cells: `False` when either side is NaN. -/
def oLe2 (a b : Option ℚ) : Bool :=
  match a, b with
  | some x, some y => decide (x ≤ y)
  | _, _ => false

/-- Pandas `a < b` on float cells: `False` when either side is NaN. -/
def oLt2 (a b : Option ℚ) : Bool :=
  match a, b with
  | some x, some y => decide (x < y)
  | _, _ => false

/-- Pandas `a >= b` on float cells: `False` when either side is NaN. -/
def oGe2 (a b : Option ℚ) : Bool := oLe2 b a

/-- Pandas `a > b` on float cells: `False` when either side is NaN. -/
def oGt2 (a b : Option ℚ) : Bool := oLt2 b a

/-- Pandas `a - b` on float cells: NaN-propagating subtraction. -/
def oSub (a b : Option ℚ) : Option ℚ :=
  match a, b with
  | some x, some y => some (x - y)
  | _, _ => none

/-- Pandas `Series.shift(1)`: NaN in front, last value dropped. -/
def shift1 : List ℚ → List (Option ℚ)
  | [] => []
  | x :: xs => none :: ((x :: xs).dropLast.map some)

/-- Pandas `Series.shift(-n)`: value `n` rows ahead, NaN for the last `n` rows. -/
def shiftNeg (n : ℕ) (xs : List ℚ) : List (Option ℚ) :=
  (xs.drop n).map some ++ List.replicate (min n xs.length) none

/-- Pandas `Series.diff()`: NaN in front, then successive differences. -/
def diffCol : List ℚ → List (Option ℚ)
  | [] => []
  | c :: cs => none :: List.zipWith (fun b a => some (b - a)) cs (c :: cs)

/-- Pandas `Series.ewm(alpha := a, adjust := False).mean()`. The state is the
previous smoothed value (`none` while only NaNs have been seen); the first
finite observation seeds the average, after that
`y_t = (1 - a) * y_(t-1) + a * x_t`. -/
def ewmMean (a : ℚ) : Option ℚ → List (Option ℚ) → List (Option ℚ)
  | _, [] => []
  | none, none :: xs => none :: ewmMean a none xs
  | none, some v :: xs => some v :: ewmMean a (some v) xs
  | some m, none :: xs => some m :: ewmMean a (some m) xs
  | some m, some v :: xs =>
      some ((1 - a) * m + a * v) :: ewmMean a (some ((1 - a) * m + a * v)) xs

/-- Pandas `Series.replace(0, e)` on a float column. -/
def replaceZero (e : ℚ) (xs : List (Option ℚ)) : List (Option ℚ) :=
  xs.map (Option.map (fun v => if v = 0 then e else v))

/-- `rsi14` of `quality_scan.py` / `trigger_scan.py` / `backtest_quality.py`
(all three scripts define the identical function): Wilder RSI via
`ewm(alpha := 1/14, adjust := False)`, with the average loss replaced by
`1e-12` when it is exactly zero.  `d.clip(lower=0)` is `max d 0` and
`-d.clip(upper=0)` is `max (-d) 0`. -/
def rsi14col (closes : List ℚ) : List (Option ℚ) :=
  let d := diffCol closes
  let ag := ewmMean (1/14) none (d.map (Option.map (fun x => max x 0)))
  let al := replaceZero (1/1000000000000)
      (ewmMean (1/14) none (d.map (Option.map (fun x => max (-x) 0))))
  List.zipWith (fun g l =>
    match g, l with
    | some gv, some lv => some (100 - 100 / (1 + gv / lv))
    | _, _ => none) ag al

/-- One window step of `Series.rolling(3, min_periods := mp)` followed by
`max`/`min` (`f`): the window is the current cell and the two previous cells
(`p1` one back, `p2` two back, `none` for NaN or for positions before the
start of the series); the aggregate is defined when at least `mp` finite
values are in the window. -/
def winAgg (mp : ℕ) (f : ℚ → ℚ → ℚ) (p2 p1 x : Option ℚ) : Option ℚ :=
  match ([p2, p1, x].filterMap id) with
  | [] => none
  | v :: vs => if mp ≤ vs.length + 1 then some (vs.foldl f v) else none

/-- Pandas `Series.rolling(3, min_periods := mp).max()` (resp. `.min()`),
written with the two trailing cells as explicit state. -/
def roll3mp (mp : ℕ) (f : ℚ → ℚ → ℚ) : Option ℚ → Option ℚ → List (Option ℚ) → List (Option ℚ)
  | _, _, [] => []
  | p2, p1, x :: xs => winAgg mp f p2 p1 x :: roll3mp mp f p1 x xs

/-- The cell one back after consuming a column (for splitting a rolling
computation at an append). -/
def carry1 : Option ℚ → List (Option ℚ) → Option ℚ
  | p, [] => p
  | _, x :: xs => carry1 x xs

/-- The cell two back after consuming a column. -/
def carry2 : Option ℚ → Option ℚ → List (Option ℚ) → Option ℚ
  | p2, _, [] => p2
  | _, p1, x :: xs => carry2 p1 x xs

theorem roll3mp_append (mp : ℕ) (f : ℚ → ℚ → ℚ) (ys : List (Option ℚ)) :
    ∀ (xs : List (Option ℚ)) (p2 p1 : Option ℚ),
      roll3mp mp f p2 p1 (xs ++ ys) =
        roll3mp mp f p2 p1 xs ++ roll3mp mp f (carry2 p2 p1 xs) (carry1 p1 xs) ys := by
  intro xs
  induction xs with
  | nil => intro p2 p1; rfl
  | cons x xs ih =>
      intro p2 p1
      simp only [List.cons_append, roll3mp, carry1, carry2, List.append_eq, ih p1 x]

theorem winAgg3_p1_none (f : ℚ → ℚ → ℚ) (a x : Option ℚ) :
    winAgg 3 f a none x = none := by
  cases a <;> cases x <;> simp [winAgg]

theorem winAgg3_x_none (f : ℚ → ℚ → ℚ) (a b : Option ℚ) :
    winAgg 3 f a b none = none := by
  cases a <;> cases b <;> simp [winAgg]

/-- With `min_periods = 3`, once the cell one back is NaN, the cell two back
is irrelevant to the whole remaining rolling computation. -/
theorem roll3_snd_none (f : ℚ → ℚ → ℚ) (xs : List (Option ℚ)) (a b : Option ℚ) :
    roll3mp 3 f a none xs = roll3mp 3 f b none xs := by
  cases xs with
  | nil => rfl
  | cons x xs => simp only [roll3mp, winAgg3_p1_none]

/-- With `min_periods = 3`, a column starting with NaN erases any rolling
state carried into it. -/
theorem roll3_head_none (f : ℚ → ℚ → ℚ) (xs : List (Option ℚ)) (p2 p1 : Option ℚ) :
    roll3mp 3 f p2 p1 (none :: xs) = roll3mp 3 f none none (none :: xs) := by
  simp only [roll3mp, winAgg3_x_none, roll3_snd_none f xs p1 none]

theorem roll3_state_irrel (f : ℚ → ℚ → ℚ) :
    ∀ (cols : List (List (Option ℚ))),
      (∀ c ∈ cols, c = [] ∨ ∃ t, c = none :: t) →
      ∀ (p2 p1 q2 q1 : Option ℚ),
        roll3mp 3 f p2 p1 cols.flatten = roll3mp 3 f q2 q1 cols.flatten := by
  intro cols
  induction cols with
  | nil => intro _ p2 p1 q2 q1; rfl
  | cons c cs ih =>
      intro h p2 p1 q2 q1
      rcases h c (by simp) with hc | ⟨t, hc⟩
      · subst hc
        simpa using ih (fun c hc => h c (by simp [hc])) p2 p1 q2 q1
      · subst hc
        simp only [List.flatten_cons, List.cons_append, roll3mp, winAgg3_x_none]
        rw [roll3_snd_none f _ p1 q1]

/-- `min_periods = 3` rolling over the concatenation of columns that each
start with NaN equals the concatenation of the per-column rollings. -/
theorem roll3_join (f : ℚ → ℚ → ℚ) :
    ∀ (cols : List (List (Option ℚ))),
      (∀ c ∈ cols, c = [] ∨ ∃ t, c = none :: t) →
      roll3mp 3 f none none cols.flatten = (cols.map (roll3mp 3 f none none)).flatten := by
  intro cols
  induction cols with
  | nil => intro _; rfl
  | cons c cs ih =>
      intro h
      have hcs : ∀ c' ∈ cs, c' = [] ∨ ∃ t, c' = none :: t :=
        fun c' hc' => h c' (by simp [hc'])
      simp only [List.flatten_cons, List.map_cons, roll3mp_append]
      rw [roll3_state_irrel f cs hcs (carry2 none none c) (carry1 none c) none none, ih hcs]

theorem shift1_shape (xs : List ℚ) : shift1 xs = [] ∨ ∃ t, shift1 xs = none :: t := by
  cases xs with
  | nil => left; rfl
  | cons x xs => right; exact ⟨_, rfl⟩

/-- A threshold-crossing flag column computed from a shifted copy of a column:
`f` receives the group tag, the cell one row up (`shift(1)`, initially NaN)
and the current cell.  This is the row-by-row reading of
`Group.eq(..) & (RSI14.shift(1) <= t) & (RSI14 > t)` in `trigger_scan.py`,
where the shift runs over the whole frame, carrying the previous row's value
across ticker boundaries. -/
def crossCol (f : String → Option ℚ → Option ℚ → Bool) :
    Option ℚ → List (String × Option ℚ) → List Bool
  | _, [] => []
  | p, tr :: xs => f tr.1 p tr.2 :: crossCol f tr.2 xs

theorem crossCol_append (f : String → Option ℚ → Option ℚ → Bool)
    (ys : List (String × Option ℚ)) :
    ∀ (xs : List (String × Option ℚ)) (p : Option ℚ),
      crossCol f p (xs ++ ys) =
        crossCol f p xs ++ crossCol f ((xs.map Prod.snd).getLastD p) ys := by
  intro xs
  induction xs with
  | nil => intro p; rfl
  | cons x xs ih =>
      intro p
      show f x.1 p x.2 :: crossCol f x.2 (xs ++ ys) =
        f x.1 p x.2 :: (crossCol f x.2 xs ++
          crossCol f (((x :: xs).map Prod.snd).getLastD p) ys)
      rw [List.map_cons, List.getLastD_cons, ih x.2]

/-- If every per-ticker pair column opens with a NaN current cell (the first
RSI value of a ticker is NaN), the carried shift state is irrelevant. -/
theorem crossCol_state_irrel (f : String → Option ℚ → Option ℚ → Bool)
    (hf : ∀ t p, f t p none = false) :
    ∀ (cols : List (List (String × Option ℚ))),
      (∀ c ∈ cols, c = [] ∨ ∃ t rest, c = (t, none) :: rest) →
      ∀ (p q : Option ℚ), crossCol f p cols.flatten = crossCol f q cols.flatten := by
  intro cols
  induction cols with
  | nil => intro _ p q; rfl
  | cons c cs ih =>
      intro h p q
      rcases h c (by simp) with hc | ⟨t, rest, hc⟩
      · subst hc
        simpa using ih (fun c hc => h c (by simp [hc])) p q
      · subst hc
        simp only [List.flatten_cons, List.cons_append, crossCol, hf]

/-- The whole-frame threshold-crossing flags equal the per-ticker flags when
every ticker's RSI column opens with NaN. -/
theorem crossCol_join (f : String → Option ℚ → Option ℚ → Bool)
    (hf : ∀ t p, f t p none = false) :
    ∀ (cols : List (List (String × Option ℚ))),
      (∀ c ∈ cols, c = [] ∨ ∃ t rest, c = (t, none) :: rest) →
      crossCol f none cols.flatten = (cols.map (crossCol f none)).flatten := by
  intro cols
  induction cols with
  | nil => intro _; rfl
  | cons c cs ih =>
      intro h
      have hcs : ∀ c' ∈ cs, c' = [] ∨ ∃ t rest, c' = (t, none) :: rest :=
        fun c' hc' => h c' (by simp [hc'])
      simp only [List.flatten_cons, List.map_cons, crossCol_append]
      rw [crossCol_state_irrel f hf cs hcs ((c.map Prod.snd).getLastD none) none, ih hcs]

theorem ewmMean_cons_none (a : ℚ) (xs : List (Option ℚ)) :
    ewmMean a none (none :: xs) = none :: ewmMean a none xs := rfl

theorem cons_of_headq_none (l : List (Option ℚ)) (h : l.head? = some none) :
    ∃ t, l = none :: t := by
  cases l with
  | nil => simp at h
  | cons a t =>
      simp only [List.head?_cons, Option.some.injEq] at h
      exact ⟨t, by rw [h]⟩

theorem rsi14col_shape (closes : List ℚ) :
    rsi14col closes = [] ∨ ∃ t, rsi14col closes = none :: t := by
  cases closes with
  | nil => left; rfl
  | cons c cs =>
      right
      apply cons_of_headq_none
      cases cs with
      | nil => rfl
      | cons c2 cs2 =>
          simp only [rsi14col, diffCol, List.map_cons, Option.map_none', ewmMean_cons_none,
            replaceZero, List.zipWith_cons_cons]
          rfl

theorem rsi14col_length (closes : List ℚ) : (rsi14col closes).length = closes.length := by
  have hd : ∀ xs : List ℚ, (diffCol xs).length = xs.length := by
    intro xs
    cases xs with
    | nil => rfl
    | cons x xs => simp [diffCol]
  have he : ∀ (a : ℚ) (p : Option ℚ) (xs : List (Option ℚ)),
      (ewmMean a p xs).length = xs.length := by
    intro a p xs
    induction xs generalizing p with
    | nil => cases p <;> rfl
    | cons x xs ih =>
        cases p <;> cases x <;> simp [ewmMean, ih]
  simp [rsi14col, replaceZero, he, hd]

/-! ## Data model

A `Bar` is one row of `data/combined.csv`:
`Date,Ticker,Group,Open,High,Low,Close,Volume`. -/

structure Bar where
  Date : ℤ
  Ticker : String
  Group : String
  Open : ℚ
  High : ℚ
  Low : ℚ
  Close : ℚ
  Volume : ℚ
deriving DecidableEq

/-- A row of the annotated frame of `quality_scan.py` `main` after lines
48-71: the input columns plus `RSI14`, `PrevOpen`, `PrevClose`, `H3`, `L3`,
`Close_fut10` and `Pattern`. -/
structure QRow where
  Date : ℤ
  Ticker : String
  Group : String
  Open : ℚ
  High : ℚ
  Low : ℚ
  Close : ℚ
  Volume : ℚ
  RSI14 : Option ℚ
  PrevOpen : Option ℚ
  PrevClose : Option ℚ
  H3 : Option ℚ
  L3 : Option ℚ
  Close_fut10 : Option ℚ
  Pattern : String
deriving DecidableEq

/-- `bull` of `quality_scan.py` lines 61-62: bullish engulfing. -/
def bullE (o c : ℚ) (po pc : Option ℚ) : Bool :=
  decide (c > o) && oLt2 pc po && oGe2 (some c) po && oLe2 (some o) pc

/-- `bear` of `quality_scan.py` lines 63-64: bearish engulfing. -/
def bearE (o c : ℚ) (po pc : Option ℚ) : Bool :=
  decide (c < o) && oGt2 pc po && oLe2 (some c) po && oGe2 (some o) pc

/-- `long_q` of `quality_scan.py` line 67. -/
def longQ (grp : String) (o c : ℚ) (rsi po pc l3 : Option ℚ) : Bool :=
  decide (grp = "oversold") && oLe2 rsi (some 30) && bullE o c po pc &&
    l3.isSome && oGt2 (oSub (some c) l3) (some 0)

/-- `short_q` of `quality_scan.py` line 68. -/
def shortQ (grp : String) (o c : ℚ) (rsi po pc h3 : Option ℚ) : Bool :=
  decide (grp = "overbought") && oGe2 rsi (some 70) && bearE o c po pc &&
    h3.isSome && oGt2 (oSub h3 (some c)) (some 0)

/-- `Pattern` of `quality_scan.py` lines 70-71 (`np.where` nesting). -/
def patternOf (grp : String) (o c : ℚ) (rsi po pc h3 l3 : Option ℚ) : String :=
  if longQ grp o c rsi po pc l3 then "OversoldLongRev"
  else if shortQ grp o c rsi po pc h3 then "OverboughtShortRev"
  else ""

/-- Build one annotated row from the zipped columns (the `Pattern` cell is a
row-wise function of the other cells of the same row). -/
def mkQRow (b : Bar) (r po pc h3 l3 f10 : Option ℚ) : QRow :=
  { Date := b.Date, Ticker := b.Ticker, Group := b.Group, Open := b.Open,
    High := b.High, Low := b.Low, Close := b.Close, Volume := b.Volume,
    RSI14 := r, PrevOpen := po, PrevClose := pc, H3 := h3, L3 := l3,
    Close_fut10 := f10,
    Pattern := patternOf b.Group b.Open b.Close r po pc h3 l3 }

/-- Zip the bar rows with the six derived columns. -/
def zip7 : List Bar → List (Option ℚ) → List (Option ℚ) → List (Option ℚ) →
    List (Option ℚ) → List (Option ℚ) → List (Option ℚ) → List QRow
  | b :: bs, r :: rs, po :: pos, pc :: pcs, h :: hs, l :: ls, f :: fs =>
      mkQRow b r po pc h l f :: zip7 bs rs pos pcs hs ls fs
  | _, _, _, _, _, _, _ => []

/-- `df["RSI14"] = g["Close"].transform(rsi14)` (line 49): per-ticker RSI,
laid out over the whole frame. -/
def colRSI (groups : List (List Bar)) : List (Option ℚ) :=
  (groups.map (fun g => rsi14col (g.map Bar.Close))).flatten

/-- `df["PrevOpen"] = g["Open"].shift(1)` (line 50): per-ticker shift. -/
def colPrevOpen (groups : List (List Bar)) : List (Option ℚ) :=
  (groups.map (fun g => shift1 (g.map Bar.Open))).flatten

/-- `df["PrevClose"] = g["Close"].shift(1)` (line 51). -/
def colPrevClose (groups : List (List Bar)) : List (Option ℚ) :=
  (groups.map (fun g => shift1 (g.map Bar.Close))).flatten

/-- `df["H3"] = g["High"].shift(1).rolling(3).max()` (line 52): the shift is
per ticker, but the 3-bar rolling (with the default `min_periods = 3`) runs
over the whole frame column. -/
def colH3 (groups : List (List Bar)) : List (Option ℚ) :=
  roll3mp 3 max none none ((groups.map (fun g => shift1 (g.map Bar.High))).flatten)

/-- `df["L3"] = g["Low"].shift(1).rolling(3).min()` (line 53). -/
def colL3 (groups : List (List Bar)) : List (Option ℚ) :=
  roll3mp 3 min none none ((groups.map (fun g => shift1 (g.map Bar.Low))).flatten)

/-- `df["Close_fut10"] = g["Close"].shift(-10)` (lines 54-55). -/
def colFut10 (groups : List (List Bar)) : List (Option ℚ) :=
  (groups.map (fun g => shiftNeg 10 (g.map Bar.Close))).flatten

/-- The annotated frame of `quality_scan.py` (lines 48-71). -/
def annotate (groups : List (List Bar)) : List QRow :=
  zip7 groups.flatten (colRSI groups) (colPrevOpen groups) (colPrevClose groups)
    (colH3 groups) (colL3 groups) (colFut10 groups)

/-! ## quality_scan.py historical sample and win-rate statistics -/

/-- `last_date = df["Date"].max()` (line 57). -/
def lastRun (groups : List (List Bar)) : ℤ :=
  ((groups.flatten.map Bar.Date).max?).getD 0

/-- `hist = df[(df.Date >= cutoff) & (df.Date < last_date) & (df.Pattern != "")]`
(line 74), with `cutoff = last_date - 180` (line 58). -/
def histRun (groups : List (List Bar)) : List QRow :=
  (annotate groups).filter (fun r =>
    decide (lastRun groups - 180 ≤ r.Date) && decide (r.Date < lastRun groups) &&
      decide (r.Pattern ≠ ""))

/-- `hist["Side"]` (line 77): `np.where(Pattern == "OversoldLongRev", "long", "short")`. -/
def histSide (r : QRow) : String :=
  if r.Pattern = "OversoldLongRev" then "long" else "short"

/-- `hist["ret10"]` (lines 78-79): forward return at the 10-bar horizon,
sign-flipped for shorts; NaN when `Close_fut10` is NaN. -/
def ret10 (r : QRow) : Option ℚ :=
  match r.Close_fut10 with
  | none => none
  | some f =>
      some (if histSide r = "short" then -((f - r.Close) / r.Close)
            else (f - r.Close) / r.Close)

/-- `hist["win"] = hist["ret10"] > 0` (line 80).  In pandas `NaN > 0` is
`False`, so this column has boolean dtype and is `False` — not NA — on rows
whose forward close does not exist. -/
def winOf (r : QRow) : Bool := oGt2 (ret10 r) (some 0)

/-- `hist["w"]` (lines 83-85): recency weight.  `age` is
`(last_date - Date).days.clip(lower = 0)`; the weight function `w` models
`np.exp(-ln 2 / 60 * age)`, which is transcendental, as an abstract
rational-valued function of the age. -/
def weightOf (w : ℤ → ℚ) (lastD : ℤ) (r : QRow) : ℚ := w (max (lastD - r.Date) 0)

/-- One row of `wstats` (lines 88-93). -/
structure WStat where
  Pattern : String
  Samples10 : ℕ
  WinRate10 : Option ℚ
deriving DecidableEq

/-- The per-pattern statistic of lines 89-92: `Samples10` is
`int(x["win"].notna().sum())` — `win` has boolean dtype, so `notna()` is
`True` on every row and this is the plain row count — and `WinRate10` is
`(win * w).sum() / w.sum()` when `w.sum() > 0`, else NaN. -/
def wstatOf (w : ℤ → ℚ) (lastD : ℤ) (hist : List QRow) (p : String) : WStat :=
  let sub := hist.filter (fun r => decide (r.Pattern = p))
  let sw := (sub.map (weightOf w lastD)).sum
  { Pattern := p,
    Samples10 := sub.length,
    WinRate10 :=
      if 0 < sw then
        some ((sub.map (fun r => if winOf r then weightOf w lastD r else 0)).sum / sw)
      else none }

/-- `hist.groupby("Pattern")` keys: the distinct `Pattern` values in sorted
order. -/
def patternKeys (hist : List QRow) : List String :=
  ((hist.map QRow.Pattern).dedup).mergeSort (fun a b => decide (a ≤ b))

/-- `wstats` (lines 88-95): one row per pattern present in `hist`; the empty
frame when `hist` is empty. -/
def wstatsOf (w : ℤ → ℚ) (lastD : ℤ) (hist : List QRow) : List WStat :=
  (patternKeys hist).map (wstatOf w lastD hist)

/-- `global_wr` (lines 97-103).  `mask = hist["win"].notna()` is every row
(boolean dtype), so `mask.any()` is just nonemptiness of `hist`. -/
def globalWr (w : ℤ → ℚ) (lastD : ℤ) (hist : List QRow) (wstats : List WStat) : Option ℚ :=
  if ¬wstats.isEmpty ∧ wstats.any (fun s => s.WinRate10.isSome) then
    if ¬hist.isEmpty then
      some ((hist.map (fun r => if winOf r then weightOf w lastD r else 0)).sum /
        (hist.map (weightOf w lastD)).sum)
    else none
  else none

def wstatsRun (groups : List (List Bar)) (w : ℤ → ℚ) : List WStat :=
  wstatsOf w (lastRun groups) (histRun groups)

def globalRun (groups : List (List Bar)) (w : ℤ → ℚ) : Option ℚ :=
  globalWr w (lastRun groups) (histRun groups) (wstatsRun groups w)

/-! ## quality_scan.py evaluation-date rows and output -/

/-- `today = df[(df.Date == last_date) & (df.Pattern != "")]` (line 106). -/
def todayRun (groups : List (List Bar)) : List QRow :=
  (annotate groups).filter (fun r =>
    decide (r.Date = lastRun groups) && decide (r.Pattern ≠ ""))

/-- One row of the emitted `quality_today.csv` table (column list of
line 136-137). -/
structure SRow where
  Date : ℤ
  Ticker : String
  Group : String
  Side : Option String
  Pattern : String
  Open : ℚ
  High : ℚ
  Low : ℚ
  Close : ℚ
  RSI14 : Option ℚ
  H3 : Option ℚ
  L3 : Option ℚ
  Stop : Option ℚ
  Target : Option ℚ
  R_R : ℚ
  WinRate10 : Option ℚ
  Samples10 : Option ℕ
  Grade : String
deriving DecidableEq

/-- Lines 113-123: side, stop, target and the constant `R_R = 1.25` for an
evaluation-date row (`WinRate10`/`Samples10`/`Grade` do not exist yet; the
`.loc` masks `longs`/`shorts` test `Pattern`, rows matching neither mask keep
NaN). -/
def setupOf (r : QRow) : SRow :=
  { Date := r.Date, Ticker := r.Ticker, Group := r.Group,
    Side := if r.Pattern = "OversoldLongRev" then some "long"
            else if r.Pattern = "OverboughtShortRev" then some "short" else none,
    Pattern := r.Pattern, Open := r.Open, High := r.High, Low := r.Low,
    Close := r.Close, RSI14 := r.RSI14, H3 := r.H3, L3 := r.L3,
    Stop := if r.Pattern = "OversoldLongRev" then r.L3
            else if r.Pattern = "OverboughtShortRev" then r.H3 else none,
    Target := if r.Pattern = "OversoldLongRev" then
                r.L3.map (fun l => r.Close + 5/4 * (r.Close - l))
              else if r.Pattern = "OverboughtShortRev" then
                r.H3.map (fun h => r.Close - 5/4 * (h - r.Close))
              else none,
    R_R := 5/4, WinRate10 := none, Samples10 := none, Grade := "" }

/-- `today.merge(wstats, on = "Pattern", how = "left")` (line 126): the
pattern keys of `wstats` are distinct, so the left join is a lookup. -/
def mergeStat (wstats : List WStat) (s : SRow) : SRow :=
  match wstats.find? (fun st => decide (st.Pattern = s.Pattern)) with
  | some st => { s with WinRate10 := st.WinRate10, Samples10 := some st.Samples10 }
  | none => { s with WinRate10 := none, Samples10 := none }

/-- Lines 128-131: `use_fallback = (Samples10.fillna(0) < 80) | WinRate10.isna()`;
when the global win rate exists, fallback rows get the global rate and the
total historical sample count. -/
def applyFallback (gw : Option ℚ) (histCount : ℕ) (s : SRow) : SRow :=
  let useFb := decide (s.Samples10.getD 0 < 80) || s.WinRate10.isNone
  match gw with
  | some g =>
      if useFb then { s with WinRate10 := some g, Samples10 := some histCount } else s
  | none => s

/-- `grade_from_winrate` (lines 32-37), on a float cell: every comparison
with NaN is `False`, so a NaN win rate falls through to `""`. -/
def grade_from_winrate (p : Option ℚ) : String :=
  match p with
  | none => ""
  | some v =>
      if v ≥ 13/20 then "A+" else if v ≥ 11/20 then "A"
      else if v ≥ 1/2 then "B+" else ""

/-- `today["Grade"] = today["WinRate10"].apply(grade_from_winrate)` (line 133). -/
def setGrade (s : SRow) : SRow := { s with Grade := grade_from_winrate s.WinRate10 }

/-- The full per-row pipeline applied to one evaluation-date row. -/
def finalRow (groups : List (List Bar)) (w : ℤ → ℚ) (r : QRow) : SRow :=
  setGrade (applyFallback (globalRun groups w) (histRun groups).length
    (mergeStat (wstatsRun groups w) (setupOf r)))

/-- String key order for `sort_values(["Grade","Pattern","Ticker"])`. -/
def outLe (a b : SRow) : Bool :=
  if a.Grade ≠ b.Grade then decide (a.Grade < b.Grade)
  else if a.Pattern ≠ b.Pattern then decide (a.Pattern < b.Pattern)
  else decide (a.Ticker ≤ b.Ticker)

/-- The header written before the data rows when setups exist (line 136-137). -/
def outCols : List String :=
  ["Date", "Ticker", "Group", "Side", "Pattern", "Open", "High", "Low", "Close",
   "RSI14", "H3", "L3", "Stop", "Target", "R_R", "WinRate10", "Samples10", "Grade"]

/-- The columns the frame has at line 106 (input columns in csv order plus
the derived columns in assignment order); this is the header written when no
candidate fires on the evaluation date (line 109 `today.to_csv`). -/
def interCols : List String :=
  ["Date", "Ticker", "Group", "Open", "High", "Low", "Close", "Volume",
   "RSI14", "PrevOpen", "PrevClose", "H3", "L3", "Close_fut10", "Pattern"]

/-- The written csv, as its header row plus its data rows. -/
structure MainOut where
  header : List String
  rows : List SRow
deriving DecidableEq

/-- `main` of `quality_scan.py`: empty input writes `pd.DataFrame()` (line
43) — a frame with no columns at all; an input with no evaluation-date
candidate writes the (still unannotated with setup columns) empty `today`
slice (line 109); otherwise the graded setups are written under `cols`
sorted by Grade, Pattern, Ticker (line 138). -/
def mainModel (groups : List (List Bar)) (w : ℤ → ℚ) : MainOut :=
  if groups.flatten.isEmpty then ⟨[], []⟩
  else if (todayRun groups).isEmpty then ⟨interCols, []⟩
  else ⟨outCols, ((todayRun groups).map (finalRow groups w)).mergeSort outLe⟩

/-! ## trigger_scan.py -/

/-- A row of the frame of `compute_triggers` after its per-ticker columns
(lines 19-30): RSI, prior-3-day levels and previous open/close are all
computed per ticker (`transform` / grouped `shift`). -/
structure TBase where
  Date : ℤ
  Ticker : String
  Group : String
  Open : ℚ
  High : ℚ
  Low : ℚ
  Close : ℚ
  RSI14 : Option ℚ
  PrevO : Option ℚ
  PrevC : Option ℚ
  H3 : Option ℚ
  L3 : Option ℚ
deriving DecidableEq

def mkTBase (b : Bar) (r po pc h3 l3 : Option ℚ) : TBase :=
  { Date := b.Date, Ticker := b.Ticker, Group := b.Group, Open := b.Open,
    High := b.High, Low := b.Low, Close := b.Close,
    RSI14 := r, PrevO := po, PrevC := pc, H3 := h3, L3 := l3 }

def zip6T : List Bar → List (Option ℚ) → List (Option ℚ) → List (Option ℚ) →
    List (Option ℚ) → List (Option ℚ) → List TBase
  | b :: bs, r :: rs, po :: pos, pc :: pcs, h :: hs, l :: ls =>
      mkTBase b r po pc h l :: zip6T bs rs pos pcs hs ls
  | _, _, _, _, _, _ => []

/-- One ticker's rows of the `compute_triggers` frame: `RSI14` via
`transform(rsi14)` (line 21); `H3`/`L3` via
`transform(lambda s: s.shift(1).rolling(3).max/min())` (lines 24-25, the
default `min_periods` of a window-3 rolling is 3); `prev_o`/`prev_c` via the
grouped `shift(1)` (lines 28-30). -/
def tbaseOf (g : List Bar) : List TBase :=
  zip6T g (rsi14col (g.map Bar.Close)) (shift1 (g.map Bar.Open))
    (shift1 (g.map Bar.Close)) (roll3mp 3 max none none (shift1 (g.map Bar.High)))
    (roll3mp 3 min none none (shift1 (g.map Bar.Low)))

/-- Lines 46-56: the list of trigger labels fired by one row. -/
def mkLabels (lr lb lc sr sd sc : Bool) : List String :=
  (if lr then ["LONG_RSI_CROSS"] else []) ++
  (if lb then ["LONG_3DAY_BREAKOUT"] else []) ++
  (if lc then ["LONG_ENGULF"] else []) ++
  (if sr then ["SHORT_RSI_CROSS"] else []) ++
  (if sd then ["SHORT_3DAY_BREAKDOWN"] else []) ++
  (if sc then ["SHORT_ENGULF"] else [])

/-- Lines 32-43: the six trigger conditions of one row.  `p` is the cell one
row up in the whole-frame `RSI14` column (`df["RSI14"].shift(1)`, lines
36-37: this shift is NOT grouped by ticker). -/
def rowFlags (p : Option ℚ) (b : TBase) : List String :=
  mkLabels
    (decide (b.Group = "oversold") && oLe2 p (some 30) && oGt2 b.RSI14 (some 30))
    (decide (b.Group = "oversold") && oGt2 (some b.Close) b.H3)
    (decide (b.Group = "oversold") && bullE b.Open b.Close b.PrevO b.PrevC)
    (decide (b.Group = "overbought") && oGe2 p (some 70) && oLt2 b.RSI14 (some 70))
    (decide (b.Group = "overbought") && oLt2 (some b.Close) b.L3)
    (decide (b.Group = "overbought") && bearE b.Open b.Close b.PrevO b.PrevC)

/-- The label construction walked over the whole frame, carrying the
previous row's RSI cell (the state of the ungrouped `shift(1)`). -/
def labelPass : Option ℚ → List TBase → List (TBase × List String)
  | _, [] => []
  | p, b :: bs => (b, rowFlags p b) :: labelPass b.RSI14 bs

def longLabels : List String := ["LONG_RSI_CROSS", "LONG_3DAY_BREAKOUT", "LONG_ENGULF"]

def shortLabels : List String := ["SHORT_RSI_CROSS", "SHORT_3DAY_BREAKDOWN", "SHORT_ENGULF"]

/-- `df["Trigger"].str.contains("LONG_")` on a row, read on the label list:
the `Trigger` cell is `"|".join(labels)`, every long label carries the
marker `LONG_` and no short label nor any join seam contains it, so the
substring test holds exactly when a long-family label fired. -/
def hasLong (ls : List String) : Bool := ls.any (fun l => decide (l ∈ longLabels))

/-- `df["Trigger"].str.contains("SHORT_")`, read on the label list. -/
def hasShort (ls : List String) : Bool := ls.any (fun l => decide (l ∈ shortLabels))

/-- Lines 60-63: the three disjoint `.loc` masks assigning `Side`. -/
def sideOf (ls : List String) : String :=
  if hasLong ls && !hasShort ls then "long"
  else if hasShort ls && !hasLong ls then "short"
  else if hasLong ls && hasShort ls then "both"
  else ""

/-- One row of the emitted `signals.csv` (column list of line 65). -/
structure TRow where
  Date : ℤ
  Ticker : String
  Group : String
  Side : String
  Trigger : List String
  Open : ℚ
  High : ℚ
  Low : ℚ
  Close : ℚ
  RSI14 : Option ℚ
  H3 : Option ℚ
  L3 : Option ℚ
deriving DecidableEq

def trigLe (a b : TRow) : Bool :=
  if a.Date ≠ b.Date then decide (a.Date ≤ b.Date) else decide (a.Ticker ≤ b.Ticker)

/-- `compute_triggers` (lines 18-68): keep the rows whose trigger list is
nonempty (`df["Trigger"] != ""`), project the output columns, sort by
(Date, Ticker).  The `.dt.date` cast of line 67 is the identity here since
dates are already day numbers. -/
def compute_triggers (groups : List (List Bar)) : List TRow :=
  let pairs := labelPass none ((groups.map tbaseOf).flatten)
  ((pairs.filter (fun x => !x.2.isEmpty)).map (fun x =>
    ({ Date := x.1.Date, Ticker := x.1.Ticker, Group := x.1.Group,
       Side := sideOf x.2, Trigger := x.2, Open := x.1.Open, High := x.1.High,
       Low := x.1.Low, Close := x.1.Close, RSI14 := x.1.RSI14,
       H3 := x.1.H3, L3 := x.1.L3 } : TRow))).mergeSort trigLe

/-- `long_rsi_cross` of line 36, as a whole-frame column: the group tag and
RSI cells row by row, with the ungrouped `shift(1)` threaded as state. -/
def longCrossF (t : String) (p r : Option ℚ) : Bool :=
  decide (t = "oversold") && oLe2 p (some 30) && oGt2 r (some 30)

/-- `short_rsi_cross` of line 37. -/
def shortCrossF (t : String) (p r : Option ℚ) : Bool :=
  decide (t = "overbought") && oGe2 p (some 70) && oLt2 r (some 70)

/-- One ticker's (Group, RSI14) cells. -/
def rsiPairs (g : List Bar) : List (String × Option ℚ) :=
  (g.map Bar.Group).zip (rsi14col (g.map Bar.Close))

/-- The `long_rsi_cross` column over the full multi-ticker frame. -/
def longCrossCol (groups : List (List Bar)) : List Bool :=
  crossCol longCrossF none ((groups.map rsiPairs).flatten)

/-- The `short_rsi_cross` column over the full multi-ticker frame. -/
def shortCrossCol (groups : List (List Bar)) : List Bool :=
  crossCol shortCrossF none ((groups.map rsiPairs).flatten)

/-! ## backtest_quality.py

The gate portion (lines 90-113) operates row-wise on feature columns
computed upstream (RSI14, MA50, engulfing flags, retracement, prior
extrema); a `BTRow` carries those features, so the gate theorems hold for
every feature valuation. -/

structure BTRow where
  Date : ℤ
  Ticker : String
  Group : String
  Open : ℚ
  High : ℚ
  Low : ℚ
  Close : ℚ
  RSI14 : Option ℚ
  MA50 : Option ℚ
  LH10 : Option ℚ
  LL10 : Option ℚ
  H3 : Option ℚ
  L3 : Option ℚ
  RetracePct : ℚ
  BullEngulf : Bool
  BearEngulf : Bool
deriving DecidableEq

/-- `rolling_prev_extrema` (lines 23-26) at its `win = 3` use sites
(lines 72-73): `x.shift(1).rolling(3, min_periods = 1)` then max/min. -/
def rolling_prev_extrema3 (f : ℚ → ℚ → ℚ) (xs : List ℚ) : List (Option ℚ) :=
  roll3mp 1 f none none (shift1 xs)

/-- `rev_long` (line 90). -/
def revLong (r : BTRow) : Bool :=
  decide (r.Group = "oversold") && oLe2 r.RSI14 (some 30) && r.BullEngulf && r.L3.isSome

/-- `rev_short` (line 91). -/
def revShort (r : BTRow) : Bool :=
  decide (r.Group = "overbought") && oGe2 r.RSI14 (some 70) && r.BearEngulf && r.H3.isSome

/-- `cont_long` (lines 93-94). -/
def contLong (r : BTRow) : Bool :=
  oGt2 (some r.Close) r.MA50 && (oGe2 r.RSI14 (some 40) && oLe2 r.RSI14 (some 65)) &&
    (decide (r.RetracePct ≤ 38/100) || oGt2 (some r.Close) r.LH10) &&
    (r.BullEngulf || oGt2 (some r.Close) r.LH10) && r.L3.isSome

/-- `cont_short` (lines 95-96). -/
def contShort (r : BTRow) : Bool :=
  oLt2 (some r.Close) r.MA50 && (oGe2 r.RSI14 (some 35) && oLe2 r.RSI14 (some 60)) &&
    (decide (r.RetracePct ≤ 38/100) || oLt2 (some r.Close) r.LL10) &&
    (r.BearEngulf || oLt2 (some r.Close) r.LL10) && r.H3.isSome

/-- `df["Setup"]` (lines 98-102): `np.select` with first-match priority. -/
def btSetup (r : BTRow) : String :=
  if revLong r then "ReversalLong"
  else if revShort r then "ReversalShort"
  else if contLong r then "ContLong"
  else if contShort r then "ContShort"
  else ""

/-- `df["Side"]` (lines 104-105): the dict `map`; `""` maps to NaN. -/
def btSide (r : BTRow) : Option String :=
  if btSetup r = "ReversalLong" ∨ btSetup r = "ContLong" then some "long"
  else if btSetup r = "ReversalShort" ∨ btSetup r = "ContShort" then some "short"
  else none

/-- `df["Stop"]` (line 108): `np.where(Side == "long", L3, H3)` — a NaN side
is not `"long"`, so it selects `H3`. -/
def btStop (r : BTRow) : Option ℚ :=
  if btSide r = some "long" then r.L3 else r.H3

/-- `df["Risk"]` (line 109). -/
def btRisk (r : BTRow) : Option ℚ :=
  if btSide r = some "long" then oSub (some r.Close) (btStop r)
  else oSub (btStop r) (some r.Close)

/-- `df["Target"]` (line 110). -/
def btTarget (r : BTRow) : Option ℚ :=
  if btSide r = some "long" then (btRisk r).map (fun k => r.Close + 5/4 * k)
  else (btRisk r).map (fun k => r.Close - 5/4 * k)

/-- `df["R_R"]` (line 111): `np.where(Risk > 0, 1.25, np.nan)`; `NaN > 0`
is `False`. -/
def btRR (r : BTRow) : Option ℚ :=
  if oGt2 (btRisk r) (some 0) then some (5/4) else none

/-- `qual` (line 113): the emitted `quality_trades.csv` rows. -/
def qualOf (rows : List BTRow) : List BTRow :=
  rows.filter (fun r =>
    decide (btSetup r ≠ "") && oGt2 (btRisk r) (some 0) && oGe2 (btRR r) (some (5/4)))

/-! ## Index formulas for the rolling windows -/

/-- The window cells feeding position `i` of a rolling-3 computation with
initial state `(p2, p1)` over `ys`. -/
def winAt (p2 p1 : Option ℚ) (ys : List (Option ℚ)) : ℕ → Option ℚ × Option ℚ × Option ℚ
  | 0 => (p2, p1, ys.getD 0 none)
  | 1 => (p1, ys.getD 0 none, ys.getD 1 none)
  | j + 2 => (ys.getD j none, ys.getD (j + 1) none, ys.getD (j + 2) none)

theorem winAt_shift (p2 p1 y : Option ℚ) (ys : List (Option ℚ)) (j : ℕ) :
    winAt p1 y ys j = winAt p2 p1 (y :: ys) (j + 1) := by
  match j with
  | 0 => rfl
  | 1 => rfl
  | k + 2 => rfl

theorem roll3mp_getD (mp : ℕ) (f : ℚ → ℚ → ℚ) :
    ∀ (ys : List (Option ℚ)) (p2 p1 : Option ℚ) (i : ℕ), i < ys.length →
      (roll3mp mp f p2 p1 ys).getD i none =
        winAgg mp f (winAt p2 p1 ys i).1 (winAt p2 p1 ys i).2.1 (winAt p2 p1 ys i).2.2 := by
  intro ys
  induction ys with
  | nil => intro p2 p1 i hi; simp at hi
  | cons y ys ih =>
      intro p2 p1 i hi
      match i with
      | 0 => rfl
      | Nat.succ j =>
          have hj : j < ys.length := by simpa using hi
          have h1 : (roll3mp mp f p2 p1 (y :: ys)).getD (j + 1) none =
              (roll3mp mp f p1 y ys).getD j none := rfl
          rw [h1, ih p1 y j hj, winAt_shift p2 p1 y ys j]

theorem shift1_length (xs : List ℚ) : (shift1 xs).length = xs.length := by
  cases xs with
  | nil => rfl
  | cons x xs => simp [shift1]

theorem shift1_getD_zero (xs : List ℚ) (hx : xs ≠ []) : (shift1 xs).getD 0 none = none := by
  cases xs with
  | nil => exact absurd rfl hx
  | cons x xs => rfl

theorem shift1_getD_succ (xs : List ℚ) (j : ℕ) (hj : j + 1 < xs.length) :
    ∃ v, (shift1 xs).getD (j + 1) none = some v := by
  cases xs with
  | nil => simp at hj
  | cons x xs =>
      have hlen : j < ((x :: xs).dropLast).length := by
        simp only [List.length_dropLast, List.length_cons] at hj ⊢
        omega
      refine ⟨((x :: xs).dropLast).getD j 0, ?_⟩
      have h2 : ((x :: xs).dropLast.map some).getD j none =
          (((x :: xs).dropLast.map some)[j]?).getD none := List.getD_eq_getElem?_getD _ _ _
      have h3 : ((x :: xs).dropLast.map some)[j]? = some (((x :: xs).dropLast).getD j 0) := by
        rw [List.getElem?_map, List.getElem?_eq_getElem hlen]
        simp [List.getD_eq_getElem?_getD, List.getElem?_eq_getElem hlen]
      show ((x :: xs).dropLast.map some).getD j none = some (((x :: xs).dropLast).getD j 0)
      rw [h2, h3]
      rfl

theorem winAgg3_nns (f : ℚ → ℚ → ℚ) (v : ℚ) : winAgg 3 f none none (some v) = none := by
  simp [winAgg]

theorem winAgg3_nss (f : ℚ → ℚ → ℚ) (a b : ℚ) :
    winAgg 3 f none (some a) (some b) = none := by
  simp [winAgg]

theorem winAgg3_sss (f : ℚ → ℚ → ℚ) (a b c : ℚ) :
    winAgg 3 f (some a) (some b) (some c) = some (f (f a b) c) := by
  simp [winAgg]

theorem winAgg1_nnn (f : ℚ → ℚ → ℚ) : winAgg 1 f none none none = none := rfl

theorem winAgg1_nns (f : ℚ → ℚ → ℚ) (v : ℚ) : winAgg 1 f none none (some v) = some v := by
  simp [winAgg]

theorem winAgg1_nss (f : ℚ → ℚ → ℚ) (a b : ℚ) :
    winAgg 1 f none (some a) (some b) = some (f a b) := by
  simp [winAgg]

theorem winAgg1_sss (f : ℚ → ℚ → ℚ) (a b c : ℚ) :
    winAgg 1 f (some a) (some b) (some c) = some (f (f a b) c) := by
  simp [winAgg]

/-- Claim C5, amended: in `trigger_scan.py` (and `quality_scan.py`) the
prior-window extrema use the rolling default `min_periods = 3 = window`, so
the cell at row `i` of a ticker is null exactly when fewer than 3 prior bars
exist; but `rolling_prev_extrema` in `backtest_quality.py` passes
`min_periods = 1`, so its cell is non-null as soon as one prior bar exists
(null only at the ticker's first row). -/
theorem rolling_extrema_min_periods (f : ℚ → ℚ → ℚ) (xs : List ℚ) (i : ℕ)
    (hi : i < xs.length) :
    ((roll3mp 3 f none none (shift1 xs)).getD i none = none ↔ i < 3) ∧
    ((rolling_prev_extrema3 f xs).getD i none = none ↔ i = 0) := by
  have hlen : i < (shift1 xs).length := by rw [shift1_length]; exact hi
  have hne : xs ≠ [] := by
    intro h; rw [h] at hi; simp at hi
  have h3 := roll3mp_getD 3 f (shift1 xs) none none i hlen
  have h1 := roll3mp_getD 1 f (shift1 xs) none none i hlen
  rw [rolling_prev_extrema3, h1, h3]
  match i with
  | 0 =>
      rw [show winAt none none (shift1 xs) 0 = (none, none, (shift1 xs).getD 0 none) from rfl,
        shift1_getD_zero xs hne]
      simp [winAgg]
  | 1 =>
      obtain ⟨v, hv⟩ := shift1_getD_succ xs 0 (by omega)
      rw [show winAt none none (shift1 xs) 1 =
        (none, (shift1 xs).getD 0 none, (shift1 xs).getD 1 none) from rfl,
        shift1_getD_zero xs hne, hv]
      simp [winAgg3_nns, winAgg1_nns]
  | 2 =>
      obtain ⟨v1, hv1⟩ := shift1_getD_succ xs 0 (by omega)
      obtain ⟨v2, hv2⟩ := shift1_getD_succ xs 1 (by omega)
      rw [show winAt none none (shift1 xs) 2 =
        ((shift1 xs).getD 0 none, (shift1 xs).getD 1 none, (shift1 xs).getD 2 none) from rfl,
        shift1_getD_zero xs hne, hv1, hv2]
      simp [winAgg3_nss, winAgg1_nss]
  | j + 3 =>
      obtain ⟨v1, hv1⟩ := shift1_getD_succ xs j (by omega)
      obtain ⟨v2, hv2⟩ := shift1_getD_succ xs (j + 1) (by omega)
      obtain ⟨v3, hv3⟩ := shift1_getD_succ xs (j + 2) (by omega)
      rw [show winAt none none (shift1 xs) (j + 3) =
        ((shift1 xs).getD (j + 1) none, (shift1 xs).getD (j + 2) none,
          (shift1 xs).getD (j + 3) none) from rfl, hv1, hv2, hv3]
      simp [winAgg3_sss, winAgg1_sss]

/-- Claim C5, counterexample: on the two-bar series `[5, 7]`,
`backtest_quality.py`'s `rolling_prev_extrema` yields a non-null prior
extremum at the second row, where only one prior bar exists (the claim says
the cell is null until 3 prior bars exist). -/
theorem min_periods_one_counterexample :
    rolling_prev_extrema3 max [5, 7] = [none, some 5] ∧ (1 : ℕ) < 3 := by
  constructor
  · show roll3mp 1 max none none (shift1 [5, 7]) = [none, some 5]
    rw [show shift1 [5, 7] = [none, some 5] from rfl]
    simp [roll3mp, winAgg]
  · omega

/-- Claim C2: every derived indicator and trigger column — `RSI14`, the
`H3`/`L3` prior extrema of `quality_scan.py` lines 52-53 (grouped shift, but
whole-frame rolling), and the RSI threshold-crossing flag columns of
`trigger_scan.py` lines 36-37 (whole-frame `shift(1)`) — computed over the
full multi-ticker frame equals the concatenation of the same column computed
on each single-ticker frame alone. -/
theorem per_ticker_independence (groups : List (List Bar)) :
    colRSI groups = (groups.map (fun g => colRSI [g])).flatten ∧
    colH3 groups = (groups.map (fun g => colH3 [g])).flatten ∧
    colL3 groups = (groups.map (fun g => colL3 [g])).flatten ∧
    longCrossCol groups = (groups.map (fun g => longCrossCol [g])).flatten ∧
    shortCrossCol groups = (groups.map (fun g => shortCrossCol [g])).flatten := by
  have hshape : ∀ (sel : Bar → ℚ) (c : List (Option ℚ)),
      c ∈ groups.map (fun g => shift1 (g.map sel)) → c = [] ∨ ∃ t, c = none :: t := by
    intro sel c hc
    obtain ⟨g, _, rfl⟩ := List.mem_map.mp hc
    exact shift1_shape _
  have hpairs : ∀ c ∈ groups.map rsiPairs, c = [] ∨ ∃ t rest, c = (t, none) :: rest := by
    intro c hc
    obtain ⟨g, _, rfl⟩ := List.mem_map.mp hc
    cases g with
    | nil => left; rfl
    | cons b bs =>
        right
        rcases rsi14col_shape ((b :: bs).map Bar.Close) with h | ⟨t, h⟩
        · have := rsi14col_length ((b :: bs).map Bar.Close)
          rw [h] at this
          simp at this
        · simp only [List.map_cons] at h
          refine ⟨b.Group, (bs.map Bar.Group).zip t, ?_⟩
          simp only [rsiPairs, List.map_cons, h, List.zip_cons_cons]
  refine ⟨?_, ?_, ?_, ?_, ?_⟩
  · rw [colRSI, List.map_congr_left (fun g _ => by
      simp [colRSI] : ∀ g ∈ groups, colRSI [g] = rsi14col (g.map Bar.Close))]
  · rw [colH3, roll3_join max _ (hshape Bar.High), List.map_map,
      List.map_congr_left (fun g _ => by
        simp [colH3] :
        ∀ g ∈ groups, (roll3mp 3 max none none ∘ fun g => shift1 (g.map Bar.High)) g
          = colH3 [g])]
  · rw [colL3, roll3_join min _ (hshape Bar.Low), List.map_map,
      List.map_congr_left (fun g _ => by
        simp [colL3] :
        ∀ g ∈ groups, (roll3mp 3 min none none ∘ fun g => shift1 (g.map Bar.Low)) g
          = colL3 [g])]
  · have hf : ∀ t p, longCrossF t p none = false := by
      intro t p; simp [longCrossF, oGt2, oLt2]
    rw [longCrossCol, crossCol_join longCrossF hf _ hpairs, List.map_map,
      List.map_congr_left (fun g _ => by
        simp [longCrossCol] :
        ∀ g ∈ groups, (crossCol longCrossF none ∘ rsiPairs) g = longCrossCol [g])]
  · have hf : ∀ t p, shortCrossF t p none = false := by
      intro t p; simp [shortCrossF, oLt2]
    rw [shortCrossCol, crossCol_join shortCrossF hf _ hpairs, List.map_map,
      List.map_congr_left (fun g _ => by
        simp [shortCrossCol] :
        ∀ g ∈ groups, (crossCol shortCrossF none ∘ rsiPairs) g = shortCrossCol [g])]

/-! ## Extraction lemmas for the quality pipeline -/

theorem oGt2_elim {a : Option ℚ} {q : ℚ} (h : oGt2 a (some q) = true) :
    ∃ v, a = some v ∧ q < v := by
  cases a with
  | none => simp [oGt2, oLt2] at h
  | some v => exact ⟨v, rfl, by simpa [oGt2, oLt2] using h⟩

theorem longQ_elim {grp : String} {o c : ℚ} {rsi po pc l3 : Option ℚ}
    (h : longQ grp o c rsi po pc l3 = true) :
    grp = "oversold" ∧ ∃ lv, l3 = some lv ∧ lv < c := by
  simp only [longQ, Bool.and_eq_true, decide_eq_true_eq] at h
  obtain ⟨⟨⟨⟨hg, _⟩, _⟩, _⟩, hgt⟩ := h
  refine ⟨hg, ?_⟩
  obtain ⟨v, hv, hpos⟩ := oGt2_elim hgt
  cases hl : l3 with
  | none => rw [hl] at hv; simp [oSub] at hv
  | some lv =>
      rw [hl] at hv
      simp only [oSub, Option.some.injEq] at hv
      exact ⟨lv, rfl, by linarith⟩

theorem shortQ_elim {grp : String} {o c : ℚ} {rsi po pc h3 : Option ℚ}
    (h : shortQ grp o c rsi po pc h3 = true) :
    grp = "overbought" ∧ ∃ hv, h3 = some hv ∧ c < hv := by
  simp only [shortQ, Bool.and_eq_true, decide_eq_true_eq] at h
  obtain ⟨⟨⟨⟨hg, _⟩, _⟩, _⟩, hgt⟩ := h
  refine ⟨hg, ?_⟩
  obtain ⟨v, hv, hpos⟩ := oGt2_elim hgt
  cases hl : h3 with
  | none => rw [hl] at hv; simp [oSub] at hv
  | some hv3 =>
      rw [hl] at hv
      simp only [oSub, Option.some.injEq] at hv
      exact ⟨hv3, rfl, by linarith⟩

theorem patternOf_long {grp : String} {o c : ℚ} {rsi po pc h3 l3 : Option ℚ}
    (h : patternOf grp o c rsi po pc h3 l3 = "OversoldLongRev") :
    longQ grp o c rsi po pc l3 = true := by
  unfold patternOf at h
  split at h
  · assumption
  · split at h
    · exact absurd h (by decide)
    · exact absurd h (by decide)

theorem patternOf_short {grp : String} {o c : ℚ} {rsi po pc h3 l3 : Option ℚ}
    (h : patternOf grp o c rsi po pc h3 l3 = "OverboughtShortRev") :
    shortQ grp o c rsi po pc h3 = true := by
  unfold patternOf at h
  split at h
  · exact absurd h (by decide)
  · split at h
    · assumption
    · exact absurd h (by decide)

theorem patternOf_cases {grp : String} {o c : ℚ} {rsi po pc h3 l3 : Option ℚ}
    (h : patternOf grp o c rsi po pc h3 l3 ≠ "") :
    patternOf grp o c rsi po pc h3 l3 = "OversoldLongRev" ∨
      patternOf grp o c rsi po pc h3 l3 = "OverboughtShortRev" := by
  by_cases h1 : longQ grp o c rsi po pc l3 = true
  · left; simp [patternOf, h1]
  · by_cases h2 : shortQ grp o c rsi po pc h3 = true
    · right; simp [patternOf, h1, h2]
    · exact absurd (by simp [patternOf, h1, h2]) h

theorem zip7_pattern :
    ∀ (bs : List Bar) (rs pos pcs hs ls fs : List (Option ℚ)) (q : QRow),
      q ∈ zip7 bs rs pos pcs hs ls fs →
      q.Pattern = patternOf q.Group q.Open q.Close q.RSI14 q.PrevOpen q.PrevClose q.H3 q.L3 := by
  intro bs
  induction bs with
  | nil => intro rs pos pcs hs ls fs q h; simp [zip7] at h
  | cons b bs ih =>
      intro rs pos pcs hs ls fs q h
      cases rs with
      | nil => simp [zip7] at h
      | cons r rs =>
        cases pos with
        | nil => simp [zip7] at h
        | cons po pos =>
          cases pcs with
          | nil => simp [zip7] at h
          | cons pc pcs =>
            cases hs with
            | nil => simp [zip7] at h
            | cons h3 hs =>
              cases ls with
              | nil => simp [zip7] at h
              | cons l3 ls =>
                cases fs with
                | nil => simp [zip7] at h
                | cons f fs =>
                    rcases List.mem_cons.mp h with h | h
                    · subst h; rfl
                    · exact ih _ _ _ _ _ _ _ h

theorem todayRun_mem (groups : List (List Bar)) (r : QRow) (h : r ∈ todayRun groups) :
    r.Pattern = patternOf r.Group r.Open r.Close r.RSI14 r.PrevOpen r.PrevClose r.H3 r.L3 ∧
      r.Pattern ≠ "" ∧ r.Date = lastRun groups := by
  have h1 := List.mem_filter.mp h
  have h2 := h1.2
  simp only [Bool.and_eq_true, decide_eq_true_eq] at h2
  exact ⟨zip7_pattern _ _ _ _ _ _ _ _ h1.1, h2.2, h2.1⟩

theorem mem_mainModel_rows (groups : List (List Bar)) (w : ℤ → ℚ) (s : SRow)
    (h : s ∈ (mainModel groups w).rows) :
    ∃ r, r ∈ todayRun groups ∧ s = finalRow groups w r := by
  unfold mainModel at h
  split at h
  · simp at h
  · split at h
    · simp at h
    · rw [show (⟨outCols, ((todayRun groups).map (finalRow groups w)).mergeSort outLe⟩ :
          MainOut).rows = ((todayRun groups).map (finalRow groups w)).mergeSort outLe from rfl,
        List.mem_mergeSort] at h
      obtain ⟨r, hr, hs⟩ := List.mem_map.mp h
      exact ⟨r, hr, hs.symm⟩

/-- The merge, fallback and grading steps only touch `WinRate10`, `Samples10`
and `Grade`; the grade of the final row is the grade of its own win-rate
cell. -/
theorem pipeline_fields (gw : Option ℚ) (n : ℕ) (ws : List WStat) (s : SRow) :
    (setGrade (applyFallback gw n (mergeStat ws s))).Side = s.Side ∧
    (setGrade (applyFallback gw n (mergeStat ws s))).Stop = s.Stop ∧
    (setGrade (applyFallback gw n (mergeStat ws s))).Target = s.Target ∧
    (setGrade (applyFallback gw n (mergeStat ws s))).Pattern = s.Pattern ∧
    (setGrade (applyFallback gw n (mergeStat ws s))).L3 = s.L3 ∧
    (setGrade (applyFallback gw n (mergeStat ws s))).H3 = s.H3 ∧
    (setGrade (applyFallback gw n (mergeStat ws s))).Close = s.Close ∧
    (setGrade (applyFallback gw n (mergeStat ws s))).R_R = s.R_R ∧
    (setGrade (applyFallback gw n (mergeStat ws s))).Grade =
      grade_from_winrate ((setGrade (applyFallback gw n (mergeStat ws s))).WinRate10) := by
  unfold setGrade applyFallback mergeStat
  cases ws.find? (fun st => decide (st.Pattern = s.Pattern)) <;> cases gw <;>
    (simp; try (split <;> simp))

/-- The possible values of `grade_from_winrate`, and when it is empty. -/
theorem grade_from_winrate_cases (p : Option ℚ) :
    (grade_from_winrate p = "A+" ∨ grade_from_winrate p = "A" ∨
      grade_from_winrate p = "B+" ∨ grade_from_winrate p = "") ∧
    (grade_from_winrate p = "" ↔ p = none ∨ ∃ v, p = some v ∧ v < 1/2) := by
  cases p with
  | none => simp [grade_from_winrate]
  | some v =>
      simp only [grade_from_winrate]
      split_ifs with h1 h2 h3
      · refine ⟨by tauto, ?_⟩
        constructor
        · intro h; exact absurd h (by decide)
        · rintro (h | ⟨q, hq, hlt⟩)
          · exact absurd h (by simp)
          · rw [Option.some.injEq] at hq; subst hq; linarith
      · refine ⟨by tauto, ?_⟩
        constructor
        · intro h; exact absurd h (by decide)
        · rintro (h | ⟨q, hq, hlt⟩)
          · exact absurd h (by simp)
          · rw [Option.some.injEq] at hq; subst hq; linarith
      · refine ⟨by tauto, ?_⟩
        constructor
        · intro h; exact absurd h (by decide)
        · rintro (h | ⟨q, hq, hlt⟩)
          · exact absurd h (by simp)
          · rw [Option.some.injEq] at hq; subst hq; linarith
      · refine ⟨by tauto, ?_⟩
        push_neg at h3
        exact ⟨fun _ => Or.inr ⟨v, rfl, by linarith⟩, fun _ => rfl⟩

/-- Claim C3, amended: every emitted row's grade is `A+`, `A`, `B+` or the
empty string, and the grade is empty exactly when the row's final win rate
is NaN or below `0.50`; rows with an empty grade are still emitted (the
script writes every evaluation-date candidate; nothing is dropped by
grade). -/
theorem grades_enumerated (groups : List (List Bar)) (w : ℤ → ℚ) (s : SRow)
    (hs : s ∈ (mainModel groups w).rows) :
    (s.Grade = "A+" ∨ s.Grade = "A" ∨ s.Grade = "B+" ∨ s.Grade = "") ∧
    (s.Grade = "" ↔ s.WinRate10 = none ∨ ∃ v, s.WinRate10 = some v ∧ v < 1/2) := by
  obtain ⟨r, _, rfl⟩ := mem_mainModel_rows groups w s hs
  have hG : (finalRow groups w r).Grade =
      grade_from_winrate ((finalRow groups w r).WinRate10) :=
    (pipeline_fields (globalRun groups w) (histRun groups).length
      (wstatsRun groups w) (setupOf r)).2.2.2.2.2.2.2.2
  rw [hG]
  exact grade_from_winrate_cases ((finalRow groups w r).WinRate10)

/-- Claim C7, amended: the pipeline always returns normally with zero data
rows in both degenerate cases, but the header is not the full output header:
on an empty input it writes a frame with no columns at all, and when no
candidate fires on the evaluation date it writes the input+intermediate
columns (no `Side`/`Stop`/`Target`/`R_R`/`WinRate10`/`Samples10`/`Grade`);
the full 18-column header appears exactly when at least one setup exists. -/
theorem degenerate_runs_write_empty_tables (groups : List (List Bar)) (w : ℤ → ℚ) :
    (groups.flatten = [] → mainModel groups w = ⟨[], []⟩) ∧
    (todayRun groups = [] → (mainModel groups w).rows = []) ∧
    (groups.flatten ≠ [] → todayRun groups = [] →
      (mainModel groups w).header = interCols) ∧
    (todayRun groups ≠ [] → (mainModel groups w).header = outCols) := by
  refine ⟨?_, ?_, ?_, ?_⟩
  · intro h; simp [mainModel, h]
  · intro h
    unfold mainModel
    split
    · rfl
    · rw [if_pos (by simp [h])]
  · intro h1 h2
    have hfl : groups.flatten.isEmpty = false := by
      cases e : groups.flatten with
      | nil => exact absurd e h1
      | cons b bs => rfl
    simp [mainModel, hfl, h2]
  · intro h
    have hfl : groups.flatten.isEmpty = false := by
      cases e : groups.flatten with
      | nil =>
          exfalso
          apply h
          unfold todayRun annotate
          rw [e]
          rfl
      | cons b bs => rfl
    have ht : (todayRun groups).isEmpty = false := by
      cases e : todayRun groups with
      | nil => exact absurd e h
      | cons x xs => rfl
    simp [mainModel, hfl, ht]

/-- Claim C4: every emitted row — of `quality_scan.py`'s setups table and of
`backtest_quality.py`'s `qual` trades — has a strictly positive risk (close
strictly on the correct side of its stop) and `R_R` at least the configured
minimum `1.25`; candidates with non-positive risk never reach the output
(`long_q`/`short_q` require a positive close-to-stop distance, and the
`qual` filter requires `Risk > 0`). -/
theorem emitted_setups_risk_positive (groups : List (List Bar)) (w : ℤ → ℚ) (s : SRow)
    (hs : s ∈ (mainModel groups w).rows) (rows : List BTRow) (r : BTRow)
    (hr : r ∈ qualOf rows) :
    ((s.Side = some "long" → ∃ l, s.Stop = some l ∧ l < s.Close) ∧
     (s.Side = some "short" → ∃ hv, s.Stop = some hv ∧ s.Close < hv) ∧
     (s.Side = some "long" ∨ s.Side = some "short") ∧ s.R_R ≥ 5/4) ∧
    ((∃ k, btRisk r = some k ∧ 0 < k) ∧ btRR r = some (5/4) ∧
     (btSide r = some "long" ∨ btSide r = some "short")) := by
  constructor
  · obtain ⟨q, hq, rfl⟩ := mem_mainModel_rows groups w s hs
    obtain ⟨hpat, hne, _⟩ := todayRun_mem groups q hq
    have hf := pipeline_fields (globalRun groups w) (histRun groups).length
      (wstatsRun groups w) (setupOf q)
    have hSide : (finalRow groups w q).Side = (setupOf q).Side := hf.1
    have hStop : (finalRow groups w q).Stop = (setupOf q).Stop := hf.2.1
    have hClose : (finalRow groups w q).Close = q.Close := hf.2.2.2.2.2.2.1
    have hRR : (finalRow groups w q).R_R = (5/4 : ℚ) := hf.2.2.2.2.2.2.2.1
    rcases patternOf_cases (hpat ▸ hne) with hL | hS
    · have hPL : q.Pattern = "OversoldLongRev" := by rw [hpat]; exact hL
      obtain ⟨_, lv, hl3, hlt⟩ := longQ_elim (patternOf_long (hpat ▸ hPL))
      have hSl : (finalRow groups w q).Side = some "long" := by
        rw [hSide]; simp [setupOf, hPL]
      refine ⟨?_, ?_, Or.inl hSl, by rw [hRR]⟩
      · intro _
        refine ⟨lv, ?_, ?_⟩
        · rw [hStop]; simp [setupOf, hPL, hl3]
        · rw [hClose]; exact hlt
      · intro hcontra
        rw [hSl] at hcontra
        exact absurd hcontra (by decide)
    · have hPS : q.Pattern = "OverboughtShortRev" := by rw [hpat]; exact hS
      obtain ⟨_, hv, hh3, hlt⟩ := shortQ_elim (patternOf_short (hpat ▸ hPS))
      have hSs : (finalRow groups w q).Side = some "short" := by
        rw [hSide]; simp [setupOf, hPS]
      refine ⟨?_, ?_, Or.inr hSs, by rw [hRR]⟩
      · intro hcontra
        rw [hSs] at hcontra
        exact absurd hcontra (by decide)
      · intro _
        refine ⟨hv, ?_, ?_⟩
        · rw [hStop]; simp [setupOf, hPS, hh3]
        · rw [hClose]; exact hlt
  · have hc := (List.mem_filter.mp hr).2
    simp only [Bool.and_eq_true, decide_eq_true_eq] at hc
    obtain ⟨⟨hset, hrisk⟩, _⟩ := hc
    obtain ⟨k, hk, hkpos⟩ := oGt2_elim hrisk
    refine ⟨⟨k, hk, hkpos⟩, ?_, ?_⟩
    · rw [btRR, if_pos hrisk]
    · have hcase : btSetup r = "ReversalLong" ∨ btSetup r = "ReversalShort" ∨
          btSetup r = "ContLong" ∨ btSetup r = "ContShort" ∨ btSetup r = "" := by
        unfold btSetup
        split_ifs <;> tauto
      rcases hcase with h | h | h | h | h
      · left; simp [btSide, h]
      · right; simp [btSide, h]
      · left; simp [btSide, h]
      · right; simp [btSide, h]
      · exact absurd h hset

/-- In `backtest_quality.py`, a long side implies the reversal/continuation
long condition fired, and both of those require `L3` to be non-null. -/
theorem btSide_long_L3 (r : BTRow) (h : btSide r = some "long") :
    ∃ l, r.L3 = some l := by
  revert h
  unfold btSide btSetup
  by_cases h1 : revLong r = true
  · intro _
    have hsome := ((Bool.and_eq_true _ _).mp h1).2
    exact ⟨r.L3.get hsome, by simp⟩
  · by_cases h2 : revShort r = true
    · simp [h1, h2]
    · by_cases h3 : contLong r = true
      · intro _
        have hsome := ((Bool.and_eq_true _ _).mp h3).2
        exact ⟨r.L3.get hsome, by simp⟩
      · by_cases h4 : contShort r = true
        · simp [h1, h2, h3, h4]
        · simp [h1, h2, h3, h4]

/-- Symmetric fact for shorts: `H3` is non-null. -/
theorem btSide_short_H3 (r : BTRow) (h : btSide r = some "short") :
    ∃ hv, r.H3 = some hv := by
  revert h
  unfold btSide btSetup
  by_cases h1 : revLong r = true
  · simp [h1]
  · by_cases h2 : revShort r = true
    · intro _
      have hsome := ((Bool.and_eq_true _ _).mp h2).2
      exact ⟨r.H3.get hsome, by simp⟩
    · by_cases h3 : contLong r = true
      · simp [h1, h2, h3]
      · by_cases h4 : contShort r = true
        · intro _
          have hsome := ((Bool.and_eq_true _ _).mp h4).2
          exact ⟨r.H3.get hsome, by simp⟩
        · simp [h1, h2, h3, h4]

/-- Claim C8: in both scripts, every emitted long setup has `Stop = L3` and
`Target = Close + 1.25 * (Close - Stop)`; every emitted short setup has
`Stop = H3` and `Target = Close - 1.25 * (Stop - Close)`. -/
theorem stop_target_formulas (groups : List (List Bar)) (w : ℤ → ℚ) (s : SRow)
    (hs : s ∈ (mainModel groups w).rows) (rows : List BTRow) (r : BTRow)
    (_hr : r ∈ qualOf rows) :
    ((s.Side = some "long" → s.Stop = s.L3 ∧
        ∃ l, s.L3 = some l ∧ s.Target = some (s.Close + 5/4 * (s.Close - l))) ∧
     (s.Side = some "short" → s.Stop = s.H3 ∧
        ∃ hv, s.H3 = some hv ∧ s.Target = some (s.Close - 5/4 * (hv - s.Close)))) ∧
    ((btSide r = some "long" → btStop r = r.L3 ∧
        ∃ l, r.L3 = some l ∧ btTarget r = some (r.Close + 5/4 * (r.Close - l))) ∧
     (btSide r = some "short" → btStop r = r.H3 ∧
        ∃ hv, r.H3 = some hv ∧ btTarget r = some (r.Close - 5/4 * (hv - r.Close)))) := by
  constructor
  · obtain ⟨q, hq, rfl⟩ := mem_mainModel_rows groups w s hs
    obtain ⟨hpat, hne, _⟩ := todayRun_mem groups q hq
    have hf := pipeline_fields (globalRun groups w) (histRun groups).length
      (wstatsRun groups w) (setupOf q)
    have hSide : (finalRow groups w q).Side = (setupOf q).Side := hf.1
    have hStop : (finalRow groups w q).Stop = (setupOf q).Stop := hf.2.1
    have hTgt : (finalRow groups w q).Target = (setupOf q).Target := hf.2.2.1
    have hL3 : (finalRow groups w q).L3 = q.L3 := hf.2.2.2.2.1
    have hH3 : (finalRow groups w q).H3 = q.H3 := hf.2.2.2.2.2.1
    have hClose : (finalRow groups w q).Close = q.Close := hf.2.2.2.2.2.2.1
    rcases patternOf_cases (hpat ▸ hne) with hL | hS
    · have hPL : q.Pattern = "OversoldLongRev" := by rw [hpat]; exact hL
      obtain ⟨_, lv, hl3, _⟩ := longQ_elim (patternOf_long (hpat ▸ hPL))
      constructor
      · intro _
        refine ⟨?_, lv, ?_, ?_⟩
        · rw [hStop, hL3]; simp [setupOf, hPL]
        · rw [hL3]; exact hl3
        · rw [hTgt, hClose]; simp [setupOf, hPL, hl3]
      · intro hcontra
        rw [hSide] at hcontra
        simp [setupOf, hPL] at hcontra
    · have hPS : q.Pattern = "OverboughtShortRev" := by rw [hpat]; exact hS
      obtain ⟨_, hv, hh3, _⟩ := shortQ_elim (patternOf_short (hpat ▸ hPS))
      constructor
      · intro hcontra
        rw [hSide] at hcontra
        simp [setupOf, hPS] at hcontra
      · intro _
        refine ⟨?_, hv, ?_, ?_⟩
        · rw [hStop, hH3]; simp [setupOf, hPS]
        · rw [hH3]; exact hh3
        · rw [hTgt, hClose]; simp [setupOf, hPS, hh3]
  · constructor
    · intro hside
      obtain ⟨l, hl⟩ := btSide_long_L3 r hside
      have hstop : btStop r = r.L3 := by simp [btStop, hside]
      refine ⟨hstop, l, hl, ?_⟩
      have hrisk : btRisk r = some (r.Close - l) := by
        simp [btRisk, hside, hstop, hl, oSub]
      simp [btTarget, hside, hrisk]
    · intro hside
      obtain ⟨hv, hh⟩ := btSide_short_H3 r hside
      have hsl : btSide r ≠ some "long" := by rw [hside]; decide
      have hstop : btStop r = r.H3 := by simp [btStop, hsl]
      refine ⟨hstop, hv, hh, ?_⟩
      have hrisk : btRisk r = some (hv - r.Close) := by
        simp [btRisk, hsl, hstop, hh, oSub]
      simp [btTarget, hsl, hrisk]

/-- Claim C10: the `R_R` column of the quality setups table is the constant
`1.25` (line 123 assigns the scalar to every row), and the `R_R` of every
emitted backtest trade is exactly `1.25`; in particular no emitted row can
reach the `R_R >= 1.50` or `R_R >= 1.75` static tiers. -/
theorem rr_constant_125 (groups : List (List Bar)) (w : ℤ → ℚ) (s : SRow)
    (hs : s ∈ (mainModel groups w).rows) (rows : List BTRow) (r : BTRow)
    (hr : r ∈ qualOf rows) :
    (s.R_R = 5/4 ∧ ¬(3/2 ≤ s.R_R) ∧ ¬(7/4 ≤ s.R_R)) ∧ btRR r = some (5/4) := by
  constructor
  · obtain ⟨q, _, rfl⟩ := mem_mainModel_rows groups w s hs
    have hRR : (finalRow groups w q).R_R = (5/4 : ℚ) :=
      (pipeline_fields (globalRun groups w) (histRun groups).length
        (wstatsRun groups w) (setupOf q)).2.2.2.2.2.2.2.1
    rw [hRR]
    refine ⟨rfl, by norm_num, by norm_num⟩
  · have hc := (List.mem_filter.mp hr).2
    simp only [Bool.and_eq_true, decide_eq_true_eq] at hc
    rw [btRR, if_pos hc.1.2]

/-! ## Trigger labels and sides -/

theorem labelPass_mem :
    ∀ (bs : List TBase) (p : Option ℚ) (x : TBase × List String),
      x ∈ labelPass p bs → ∃ q, x.2 = rowFlags q x.1 := by
  intro bs
  induction bs with
  | nil => intro p x h; simp [labelPass] at h
  | cons b bs ih =>
      intro p x h
      rcases List.mem_cons.mp h with h | h
      · subst h; exact ⟨p, rfl⟩
      · exact ih _ _ h

theorem hasLong_mkLabels (lr lb lc sr sd sc : Bool) :
    hasLong (mkLabels lr lb lc sr sd sc) = (lr || lb || lc) := by
  cases lr <;> cases lb <;> cases lc <;> cases sr <;> cases sd <;> cases sc <;> decide

theorem hasShort_mkLabels (lr lb lc sr sd sc : Bool) :
    hasShort (mkLabels lr lb lc sr sd sc) = (sr || sd || sc) := by
  cases lr <;> cases lb <;> cases lc <;> cases sr <;> cases sd <;> cases sc <;> decide

theorem mem_mkLabels {l : String} {lr lb lc sr sd sc : Bool}
    (h : l ∈ mkLabels lr lb lc sr sd sc) : l ∈ longLabels ∨ l ∈ shortLabels := by
  have hsplit : ∀ (b : Bool) (a : String), l ∈ (if b then [a] else ([] : List String)) →
      l = a := by
    intro b a hb
    cases b
    · simp at hb
    · simpa using hb
  unfold mkLabels at h
  rcases List.mem_append.mp h with h | h
  on_goal 2 => right; rw [hsplit _ _ h]; decide
  rcases List.mem_append.mp h with h | h
  on_goal 2 => right; rw [hsplit _ _ h]; decide
  rcases List.mem_append.mp h with h | h
  on_goal 2 => right; rw [hsplit _ _ h]; decide
  rcases List.mem_append.mp h with h | h
  on_goal 2 => left; rw [hsplit _ _ h]; decide
  rcases List.mem_append.mp h with h | h
  on_goal 2 => left; rw [hsplit _ _ h]; decide
  left; rw [hsplit _ _ h]; decide

theorem long_short_disjoint : ∀ l ∈ longLabels, l ∉ shortLabels := by decide

theorem rowFlags_long_group (p : Option ℚ) (b : TBase)
    (h : hasLong (rowFlags p b) = true) : b.Group = "oversold" := by
  rw [rowFlags, hasLong_mkLabels] at h
  simp only [Bool.or_eq_true, Bool.and_eq_true, decide_eq_true_eq] at h
  tauto

theorem rowFlags_short_group (p : Option ℚ) (b : TBase)
    (h : hasShort (rowFlags p b) = true) : b.Group = "overbought" := by
  rw [rowFlags, hasShort_mkLabels] at h
  simp only [Bool.or_eq_true, Bool.and_eq_true, decide_eq_true_eq] at h
  tauto

theorem rowFlags_labels (p : Option ℚ) (b : TBase) :
    ∀ l ∈ rowFlags p b, l ∈ longLabels ∨ l ∈ shortLabels := by
  intro l hl
  exact mem_mkLabels hl

theorem mem_compute_triggers (groups : List (List Bar)) (t : TRow)
    (ht : t ∈ compute_triggers groups) :
    ∃ p b, t.Trigger = rowFlags p b ∧ t.Side = sideOf t.Trigger ∧
      t.Trigger ≠ [] ∧ t.Group = b.Group := by
  unfold compute_triggers at ht
  rw [List.mem_mergeSort] at ht
  obtain ⟨x, hx, rfl⟩ := List.mem_map.mp ht
  have hx' := List.mem_filter.mp hx
  obtain ⟨p, hp⟩ := labelPass_mem _ _ _ hx'.1
  refine ⟨p, x.1, hp, rfl, ?_, rfl⟩
  have h2 := hx'.2
  simp only [Bool.not_eq_true'] at h2
  exact List.isEmpty_eq_false.mp h2

/-- The possible sides of a nonempty label list whose labels all come from
the two families and whose families cannot co-fire. -/
theorem sideOf_cases (ls : List String) (hne : ls ≠ [])
    (hsub : ∀ l ∈ ls, l ∈ longLabels ∨ l ∈ shortLabels)
    (hdis : ¬(hasLong ls = true ∧ hasShort ls = true)) :
    (ls.all (fun l => decide (l ∈ longLabels)) = true → sideOf ls = "long") ∧
    (ls.all (fun l => decide (l ∈ shortLabels)) = true → sideOf ls = "short") ∧
    (sideOf ls = "long" ∨ sideOf ls = "short") := by
  obtain ⟨l0, ls', rfl⟩ : ∃ l0 ls', ls = l0 :: ls' := by
    cases ls with
    | nil => exact absurd rfl hne
    | cons a as => exact ⟨a, as, rfl⟩
  have hside : sideOf (l0 :: ls') = "long" ∨ sideOf (l0 :: ls') = "short" := by
    rcases hsub l0 (by simp) with h0 | h0
    · have hLong : hasLong (l0 :: ls') = true := by
        simp only [hasLong, List.any_eq_true]
        exact ⟨l0, by simp, by simpa using h0⟩
      have hShort : hasShort (l0 :: ls') = false := by
        cases e : hasShort (l0 :: ls') with
        | false => rfl
        | true => exact absurd ⟨hLong, e⟩ hdis
      left
      simp [sideOf, hLong, hShort]
    · have hShort : hasShort (l0 :: ls') = true := by
        simp only [hasShort, List.any_eq_true]
        exact ⟨l0, by simp, by simpa using h0⟩
      have hLong : hasLong (l0 :: ls') = false := by
        cases e : hasLong (l0 :: ls') with
        | false => rfl
        | true => exact absurd ⟨e, hShort⟩ hdis
      right
      simp [sideOf, hLong, hShort]
  refine ⟨?_, ?_, hside⟩
  · intro hall
    have hLong : hasLong (l0 :: ls') = true := by
      simp only [List.all_eq_true, decide_eq_true_eq] at hall
      simp only [hasLong, List.any_eq_true]
      exact ⟨l0, by simp, by simpa using hall l0 (by simp)⟩
    have hShort : hasShort (l0 :: ls') = false := by
      cases e : hasShort (l0 :: ls') with
      | false => rfl
      | true => exact absurd ⟨hLong, e⟩ hdis
    simp [sideOf, hLong, hShort]
  · intro hall
    have hShort : hasShort (l0 :: ls') = true := by
      simp only [List.all_eq_true, decide_eq_true_eq] at hall
      simp only [hasShort, List.any_eq_true]
      exact ⟨l0, by simp, by simpa using hall l0 (by simp)⟩
    have hLong : hasLong (l0 :: ls') = false := by
      cases e : hasLong (l0 :: ls') with
      | false => rfl
      | true => exact absurd ⟨e, hShort⟩ hdis
    simp [sideOf, hLong, hShort]

/-- Claim C9: Side is a deterministic function of the fired pattern family.
In `trigger_scan.py`, an emitted row whose fired triggers are all
long-family carries `Side = "long"`, all short-family carries
`Side = "short"`, and no other side value is ever emitted (the long and
short trigger families gate on different group tags, so they can never
co-fire and `"both"`/`""` are unreachable).  In `quality_scan.py`, the side
of an emitted setup is `"long"` for `OversoldLongRev` and `"short"` for
`OverboughtShortRev`, and nothing else. -/
theorem side_deterministic_from_pattern (groups : List (List Bar)) (t : TRow)
    (ht : t ∈ compute_triggers groups) (groups2 : List (List Bar)) (w : ℤ → ℚ)
    (s : SRow) (hs : s ∈ (mainModel groups2 w).rows) :
    ((t.Trigger.all (fun l => decide (l ∈ longLabels)) = true → t.Side = "long") ∧
     (t.Trigger.all (fun l => decide (l ∈ shortLabels)) = true → t.Side = "short") ∧
     (t.Side = "long" ∨ t.Side = "short")) ∧
    ((s.Pattern = "OversoldLongRev" → s.Side = some "long") ∧
     (s.Pattern = "OverboughtShortRev" → s.Side = some "short") ∧
     (s.Side = some "long" ∨ s.Side = some "short")) := by
  constructor
  · obtain ⟨p, b, hflags, hside, hne, hgrp⟩ := mem_compute_triggers groups t ht
    have hsub : ∀ l ∈ t.Trigger, l ∈ longLabels ∨ l ∈ shortLabels := by
      rw [hflags]; exact rowFlags_labels p b
    have hdis : ¬(hasLong t.Trigger = true ∧ hasShort t.Trigger = true) := by
      rintro ⟨hL, hS⟩
      rw [hflags] at hL hS
      have h1 := rowFlags_long_group p b hL
      have h2 := rowFlags_short_group p b hS
      rw [h1] at h2
      exact absurd h2 (by decide)
    have := sideOf_cases t.Trigger hne hsub hdis
    rw [hside]
    exact this
  · obtain ⟨q, hq, rfl⟩ := mem_mainModel_rows groups2 w s hs
    obtain ⟨hpat, hne, _⟩ := todayRun_mem groups2 q hq
    have hf := pipeline_fields (globalRun groups2 w) (histRun groups2).length
      (wstatsRun groups2 w) (setupOf q)
    have hSide : (finalRow groups2 w q).Side = (setupOf q).Side := hf.1
    have hPat : (finalRow groups2 w q).Pattern = q.Pattern := hf.2.2.2.1
    refine ⟨?_, ?_, ?_⟩
    · intro hp
      rw [hPat] at hp
      rw [hSide]
      simp [setupOf, hp]
    · intro hp
      rw [hPat] at hp
      rw [hSide]
      simp [setupOf, hp]
    · rcases patternOf_cases (hpat ▸ hne) with hL | hS
      · left
        rw [hSide]
        simp [setupOf, show q.Pattern = "OversoldLongRev" from by rw [hpat]; exact hL]
      · right
        rw [hSide]
        simp [setupOf, show q.Pattern = "OverboughtShortRev" from by rw [hpat]; exact hS]

/-! ## The empirical fallback -/

def mkBar (d : ℤ) (tk : String) (o h l c : ℚ) : Bar :=
  { Date := d, Ticker := tk, Group := "oversold", Open := o, High := h,
    Low := l, Close := c, Volume := 0 }

def groupA : List Bar :=
  [mkBar 0 "AAA" 100 100 100 100, mkBar 1 "AAA" 90 90 85 86,
   mkBar 2 "AAA" 80 80 75 76, mkBar 3 "AAA" 70 70 60 61,
   mkBar 4 "AAA" 60 72 59 71, mkBar 5 "AAA" 71 75 70 74]

def groupB : List Bar :=
  [mkBar 1 "BBB" 100 100 100 100, mkBar 2 "BBB" 90 90 85 86,
   mkBar 3 "BBB" 80 80 75 76, mkBar 4 "BBB" 70 70 60 61,
   mkBar 5 "BBB" 60 72 59 71]

def cGroups : List (List Bar) := [groupA, groupB]

/-- A concrete weight function standing in for `exp(-ln 2 / 60 * age)` in
closed evaluations (the claims under test do not depend on its shape). -/
def cW : ℤ → ℚ := fun _ => 1

theorem eval_colRSI : colRSI cGroups =
    [none, some 0, some 0, some 0, some (98000/18569), some (1685600/245513),
     none, some 0, some 0, some 0, some (98000/18569)] := by
  norm_num [colRSI, cGroups, groupA, groupB, mkBar, rsi14col, diffCol, ewmMean,
    replaceZero, max_def]

theorem eval_colPrevOpen : colPrevOpen cGroups =
    [none, some 100, some 90, some 80, some 70, some 60,
     none, some 100, some 90, some 80, some 70] := by
  norm_num [colPrevOpen, cGroups, groupA, groupB, mkBar, shift1]

theorem eval_colPrevClose : colPrevClose cGroups =
    [none, some 100, some 86, some 76, some 61, some 71,
     none, some 100, some 86, some 76, some 61] := by
  norm_num [colPrevClose, cGroups, groupA, groupB, mkBar, shift1]

theorem eval_colH3 : colH3 cGroups =
    [none, none, none, some 100, some 90, some 80,
     none, none, none, some 100, some 90] := by
  norm_num [colH3, cGroups, groupA, groupB, mkBar, shift1, roll3mp, winAgg,
    List.filterMap_cons, List.filterMap_nil, id_eq, max_def]

theorem eval_colL3 : colL3 cGroups =
    [none, none, none, some 75, some 60, some 59,
     none, none, none, some 75, some 60] := by
  norm_num [colL3, cGroups, groupA, groupB, mkBar, shift1, roll3mp, winAgg,
    List.filterMap_cons, List.filterMap_nil, id_eq, min_def]

theorem eval_colFut10 : colFut10 cGroups =
    [none, none, none, none, none, none, none, none, none, none, none] := by
  norm_num [colFut10, cGroups, groupA, groupB, mkBar, shiftNeg, List.replicate]

/-- The AAA candidate of date 4: one bar before the end of the data, so its
forward close at the 10-bar horizon does not exist. -/
def histRowA : QRow :=
  { Date := 4, Ticker := "AAA", Group := "oversold", Open := 60, High := 72,
    Low := 59, Close := 71, Volume := 0, RSI14 := some (98000/18569),
    PrevOpen := some 70, PrevClose := some 61, H3 := some 90, L3 := some 60,
    Close_fut10 := none, Pattern := "OversoldLongRev" }

/-- The BBB candidate of the evaluation date 5. -/
def todayRowB : QRow :=
  { Date := 5, Ticker := "BBB", Group := "oversold", Open := 60, High := 72,
    Low := 59, Close := 71, Volume := 0, RSI14 := some (98000/18569),
    PrevOpen := some 70, PrevClose := some 61, H3 := some 90, L3 := some 60,
    Close_fut10 := none, Pattern := "OversoldLongRev" }

theorem eval_annotate : annotate cGroups =
    [⟨0, "AAA", "oversold", 100, 100, 100, 100, 0, none, none, none, none, none, none, ""⟩,
     ⟨1, "AAA", "oversold", 90, 90, 85, 86, 0, some 0, some 100, some 100, none, none, none, ""⟩,
     ⟨2, "AAA", "oversold", 80, 80, 75, 76, 0, some 0, some 90, some 86, none, none, none, ""⟩,
     ⟨3, "AAA", "oversold", 70, 70, 60, 61, 0, some 0, some 80, some 76, some 100, some 75, none, ""⟩,
     histRowA,
     ⟨5, "AAA", "oversold", 71, 75, 70, 74, 0, some (1685600/245513), some 60, some 71,
       some 80, some 59, none, ""⟩,
     ⟨1, "BBB", "oversold", 100, 100, 100, 100, 0, none, none, none, none, none, none, ""⟩,
     ⟨2, "BBB", "oversold", 90, 90, 85, 86, 0, some 0, some 100, some 100, none, none, none, ""⟩,
     ⟨3, "BBB", "oversold", 80, 80, 75, 76, 0, some 0, some 90, some 86, none, none, none, ""⟩,
     ⟨4, "BBB", "oversold", 70, 70, 60, 61, 0, some 0, some 80, some 76, some 100, some 75, none, ""⟩,
     todayRowB] := by
  unfold annotate
  rw [eval_colRSI, eval_colPrevOpen, eval_colPrevClose, eval_colH3, eval_colL3,
    eval_colFut10]
  norm_num [cGroups, groupA, groupB, mkBar, zip7, mkQRow, patternOf, longQ, shortQ,
    bullE, bearE, oLe2, oLt2, oGe2, oGt2, oSub, histRowA, todayRowB]

theorem eval_lastRun : lastRun cGroups = 5 := by
  norm_num [lastRun, cGroups, groupA, groupB, mkBar, List.max?, max_def]

theorem eval_hist : histRun cGroups = [histRowA] := by
  unfold histRun
  rw [eval_annotate, eval_lastRun]
  norm_num [histRowA, todayRowB, List.filter]
  simp

theorem eval_today : todayRun cGroups = [todayRowB] := by
  unfold todayRun
  rw [eval_annotate, eval_lastRun]
  norm_num [histRowA, todayRowB, List.filter]
  simp

theorem eval_wstats : wstatsRun cGroups cW =
    [{ Pattern := "OversoldLongRev", Samples10 := 1, WinRate10 := some 0 }] := by
  unfold wstatsRun wstatsOf patternKeys
  rw [eval_hist, eval_lastRun]
  norm_num [histRowA, wstatOf, weightOf, winOf, ret10, histSide, cW, oGt2, oLt2,
    List.dedup, List.mergeSort, List.filter, max_def]

theorem eval_global : globalRun cGroups cW = some 0 := by
  unfold globalRun
  rw [eval_wstats, eval_hist, eval_lastRun]
  norm_num [globalWr, histRowA, weightOf, winOf, ret10, histSide, cW, oGt2, oLt2,
    max_def]

/-- The single emitted setups row of `cGroups`. -/
def outRowB : SRow :=
  { Date := 5, Ticker := "BBB", Group := "oversold", Side := some "long",
    Pattern := "OversoldLongRev", Open := 60, High := 72, Low := 59, Close := 71,
    RSI14 := some (98000/18569), H3 := some 90, L3 := some 60, Stop := some 60,
    Target := some (339/4), R_R := 5/4, WinRate10 := some 0, Samples10 := some 1,
    Grade := "" }

theorem eval_final : finalRow cGroups cW todayRowB = outRowB := by
  unfold finalRow
  rw [eval_global, eval_wstats, eval_hist]
  norm_num [mergeStat, applyFallback, setGrade, setupOf, grade_from_winrate,
    todayRowB, outRowB, List.find?]

theorem eval_main : mainModel cGroups cW = ⟨outCols, [outRowB]⟩ := by
  have h1 : cGroups.flatten.isEmpty = false := by
    norm_num [cGroups, groupA, groupB]
  unfold mainModel
  rw [eval_today, h1]
  norm_num [eval_final, List.mergeSort]

/-- A concrete backtest row that passes the `qual` gate of
`backtest_quality.py`. -/
def cBT : BTRow :=
  { Date := 0, Ticker := "AAA", Group := "oversold", Open := 60, High := 72,
    Low := 59, Close := 71, RSI14 := some 25, MA50 := none, LH10 := none,
    LL10 := none, H3 := some 90, L3 := some 60, RetracePct := 0,
    BullEngulf := true, BearEngulf := false }

theorem eval_qual : qualOf [cBT] = [cBT] := by
  norm_num [qualOf, cBT, btSetup, revLong, revShort, contLong, contShort, btSide,
    btStop, btRisk, btRR, oLe2, oGe2, oGt2, oLt2, oSub, List.filter]
  simp

/-- A one-ticker input on which a 3-day breakout trigger fires on the last
bar. -/
def trigBar (d : ℤ) (v : ℚ) : Bar :=
  { Date := d, Ticker := "TTT", Group := "oversold", Open := v, High := v,
    Low := v, Close := v, Volume := 0 }

def cTG : List (List Bar) := [[trigBar 0 1, trigBar 1 2, trigBar 2 3, trigBar 3 10]]

def cTRow : TRow :=
  { Date := 3, Ticker := "TTT", Group := "oversold", Side := "long",
    Trigger := ["LONG_3DAY_BREAKOUT"], Open := 10, High := 10, Low := 10,
    Close := 10, RSI14 := some (1000000000000000/10000000000007),
    H3 := some 3, L3 := some 1 }

theorem eval_trig : compute_triggers cTG = [cTRow] := by
  norm_num [compute_triggers, cTG, trigBar, tbaseOf, zip6T, mkTBase, rsi14col,
    diffCol, ewmMean, replaceZero, shift1, roll3mp, winAgg, labelPass, rowFlags,
    mkLabels, bullE, bearE, oLe2, oLt2, oGe2, oGt2, sideOf, hasLong, hasShort,
    longLabels, shortLabels, cTRow, List.filterMap_cons, List.filterMap_nil,
    id_eq, max_def, min_def, List.mergeSort, List.filter]
  simp

/-! ## Claim C1: the dataset-end invariant is violated by the code -/

/-- Claim C1, code bug, evaluated at a failing input: the ticker-AAA candidate
of date 4 has no forward close at the 10-bar horizon (`Close_fut10` is NaN),
yet it is the one row of the historical sample, its `win` flag evaluates to
`False` (pandas `NaN > 0`), the reported per-pattern sample count is 1 — it
counts the undefined row — and the weighted win rate is 0, i.e. the
undefined forward return has been scored as a loss in both the pattern and
the global rate, where the claim requires the row to be excluded. -/
theorem undefined_forward_return_counted_as_loss :
    histRun cGroups = [histRowA] ∧ histRowA.Close_fut10 = none ∧
    winOf histRowA = false ∧
    wstatsRun cGroups cW =
      [{ Pattern := "OversoldLongRev", Samples10 := 1, WinRate10 := some 0 }] ∧
    globalRun cGroups cW = some 0 :=
  ⟨eval_hist, rfl, rfl, eval_wstats, eval_global⟩

/-- Claim C3, counterexample: on `cGroups` the emitted setups table contains a
row whose win rate is `0 < 0.50` and whose grade is the empty string — the
candidate below the lowest grade threshold is emitted, not dropped. -/
theorem ungraded_low_winrate_row_emitted :
    (mainModel cGroups cW).rows = [outRowB] ∧ outRowB.WinRate10 = some 0 ∧
    ((0 : ℚ) < 1/2) ∧ outRowB.Grade = "" ∧ outRowB.Grade ≠ "A+" ∧
    outRowB.Grade ≠ "A" ∧ outRowB.Grade ≠ "B+" :=
  ⟨by rw [eval_main], rfl, by norm_num, rfl, by decide, by decide, by decide⟩

/-- Claim C7, counterexample: on an empty input table the script writes
`pd.DataFrame()` — a csv with no columns at all — so the output carries
neither the `Grade` nor the `Stop` column of the full output header. -/
theorem empty_input_writes_headerless_file :
    mainModel [] cW = ⟨[], []⟩ ∧ "Grade" ∉ (mainModel [] cW).header ∧
    "Stop" ∉ (mainModel [] cW).header := by
  have h : mainModel [] cW = ⟨[], []⟩ := rfl
  refine ⟨h, ?_, ?_⟩ <;> rw [h] <;> simp

/-! ## Witnesses -/

theorem rolling_extrema_min_periods_witness :
    ((roll3mp 3 max none none (shift1 [1, 2, 3, 4])).getD 3 none = none ↔ 3 < 3) ∧
    ((rolling_prev_extrema3 max [1, 2, 3, 4]).getD 3 none = none ↔ 3 = 0) :=
  rolling_extrema_min_periods max [1, 2, 3, 4] 3 (by norm_num)

theorem grades_enumerated_witness :
    (outRowB.Grade = "A+" ∨ outRowB.Grade = "A" ∨ outRowB.Grade = "B+" ∨
      outRowB.Grade = "") ∧
    (outRowB.Grade = "" ↔ outRowB.WinRate10 = none ∨
      ∃ v, outRowB.WinRate10 = some v ∧ v < 1/2) :=
  grades_enumerated cGroups cW outRowB
    (by rw [eval_main]; exact List.mem_singleton.mpr rfl)

theorem emitted_setups_risk_positive_witness :
    ((outRowB.Side = some "long" → ∃ l, outRowB.Stop = some l ∧ l < outRowB.Close) ∧
     (outRowB.Side = some "short" → ∃ hv, outRowB.Stop = some hv ∧ outRowB.Close < hv) ∧
     (outRowB.Side = some "long" ∨ outRowB.Side = some "short") ∧ outRowB.R_R ≥ 5/4) ∧
    ((∃ k, btRisk cBT = some k ∧ 0 < k) ∧ btRR cBT = some (5/4) ∧
     (btSide cBT = some "long" ∨ btSide cBT = some "short")) :=
  emitted_setups_risk_positive cGroups cW outRowB
    (by rw [eval_main]; exact List.mem_singleton.mpr rfl) [cBT] cBT
    (by rw [eval_qual]; exact List.mem_singleton.mpr rfl)

theorem degenerate_runs_write_empty_tables_witness :
    mainModel [] cW = ⟨[], []⟩ :=
  (degenerate_runs_write_empty_tables [] cW).1 rfl

theorem stop_target_formulas_witness :
    ((outRowB.Side = some "long" → outRowB.Stop = outRowB.L3 ∧
        ∃ l, outRowB.L3 = some l ∧
          outRowB.Target = some (outRowB.Close + 5/4 * (outRowB.Close - l))) ∧
     (outRowB.Side = some "short" → outRowB.Stop = outRowB.H3 ∧
        ∃ hv, outRowB.H3 = some hv ∧
          outRowB.Target = some (outRowB.Close - 5/4 * (hv - outRowB.Close)))) ∧
    ((btSide cBT = some "long" → btStop cBT = cBT.L3 ∧
        ∃ l, cBT.L3 = some l ∧
          btTarget cBT = some (cBT.Close + 5/4 * (cBT.Close - l))) ∧
     (btSide cBT = some "short" → btStop cBT = cBT.H3 ∧
        ∃ hv, cBT.H3 = some hv ∧
          btTarget cBT = some (cBT.Close - 5/4 * (hv - cBT.Close)))) :=
  stop_target_formulas cGroups cW outRowB
    (by rw [eval_main]; exact List.mem_singleton.mpr rfl) [cBT] cBT
    (by rw [eval_qual]; exact List.mem_singleton.mpr rfl)

theorem side_deterministic_from_pattern_witness :
    ((cTRow.Trigger.all (fun l => decide (l ∈ longLabels)) = true → cTRow.Side = "long") ∧
     (cTRow.Trigger.all (fun l => decide (l ∈ shortLabels)) = true → cTRow.Side = "short") ∧
     (cTRow.Side = "long" ∨ cTRow.Side = "short")) ∧
    ((outRowB.Pattern = "OversoldLongRev" → outRowB.Side = some "long") ∧
     (outRowB.Pattern = "OverboughtShortRev" → outRowB.Side = some "short") ∧
     (outRowB.Side = some "long" ∨ outRowB.Side = some "short")) :=
  side_deterministic_from_pattern cTG cTRow
    (by rw [eval_trig]; exact List.mem_singleton.mpr rfl) cGroups cW outRowB
    (by rw [eval_main]; exact List.mem_singleton.mpr rfl)

theorem rr_constant_125_witness :
    (outRowB.R_R = 5/4 ∧ ¬(3/2 ≤ outRowB.R_R) ∧ ¬(7/4 ≤ outRowB.R_R)) ∧
    btRR cBT = some (5/4) :=
  rr_constant_125 cGroups cW outRowB
    (by rw [eval_main]; exact List.mem_singleton.mpr rfl) [cBT] cBT
    (by rw [eval_qual]; exact List.mem_singleton.mpr rfl)

end SwingScan
